import Mathlib

/-!
# Verification of the dothack-frontend RBAC / lifecycle / judging core

Shallow embedding of the decision logic of the hackathon-operations frontend:

* `frontend/lib/auth/route-protection.ts` — public/protected/role-gated route
  classification (`isPublicRoute`, `isProtectedRoute`, `getRequiredRoles`);
* `frontend/middleware.ts` — the edge middleware token-presence gate;
* the hackathon lifecycle workflow (`VALID_STATUS_TRANSITIONS`,
  `canTransitionStatus`, `transitionHackathonStatus`, `createHackathonWithSetup`);
* the judging workflow (`scoreSubmission`, `calculateTotalScore`);
* `frontend/lib/api/rubrics.ts` (`createRubric`, `validateCriteria`) and the
  `useCreateRubric` mutation gate;
* `frontend/lib/api/scores.ts` (`createScore`);
* the embeddings namespace helpers (`validateNamespace`, `parseNamespace`,
  `EmbeddingNamespace`, `DocumentId`, `parseDocumentId`) and
  `frontend/lib/api/submissions.ts` (`createSubmission`).

Strings are modelled by Lean `String` (JavaScript string primitives are
re-implemented over the underlying character list so that their behaviour is
transparent to proofs).  JavaScript numbers are modelled by `ℚ`: the scoring
arithmetic of the source uses IEEE doubles, and every numeric claim checked
here is stated with tolerances that absorb that difference.  Asynchronous
external calls (the ZeroDB table store) are modelled by passing the response
of each call as an explicit argument, and every function that performs
external calls additionally returns the trace of the calls it issued, so that
"no network call is made" is a provable statement about the trace.
JSON (de)serialisation is abstracted: a field holding `JSON.stringify(x)` is
modelled as holding `x`, and a `JSON.parse` of externally supplied text is
modelled by an `Except` value recording whether the parse succeeds.
-/

/-! ## Generic JavaScript string primitives over character lists -/

/-- `isPreB pat s` is true iff the character list `pat` is a prefix of `s`.
This is the semantics of JavaScript `s.startsWith(pat)`. -/
def isPreB : List Char → List Char → Bool
  | [], _ => true
  | _ :: _, [] => false
  | a :: as, b :: bs => (a == b) && isPreB as bs

/-- JavaScript `s.startsWith(pat)` on `String`. -/
def strStartsWith (s pat : String) : Bool := isPreB pat.data s.data

/-- `dropPref s pat` returns `some rest` with `s = pat ++ rest` iff `pat` is a
prefix of `s`, and `none` otherwise. -/
def dropPref : List Char → List Char → Option (List Char)
  | s, [] => some s
  | [], _ :: _ => none
  | c :: cs, p :: ps => if c == p then dropPref cs ps else none

/-- JavaScript `str.split(sep)` for a single-character separator: splits the
character list at every occurrence of `sep`.  `splitCh sep [] = [[]]`, matching
`"".split(sep) = [""]`. -/
def splitCh (sep : Char) : List Char → List (List Char)
  | [] => [[]]
  | c :: cs =>
    if c == sep then [] :: splitCh sep cs
    else
      match splitCh sep cs with
      | [] => [[c]]
      | g :: gs => (c :: g) :: gs

/-- JavaScript `s.replace(pat, rep)`: replace the first occurrence of `pat`
(the leftmost match) by `rep`; if `pat` does not occur, the string is
unchanged. -/
def replOnce (s pat rep : List Char) : List Char :=
  if isPreB pat s then rep ++ s.drop pat.length
  else
    match s with
    | [] => []
    | c :: cs => c :: replOnce cs pat rep

/-- `!s.trim()` for a JavaScript string: true iff `s` consists only of
whitespace (in particular iff `s` is empty after trimming). -/
def isBlank (s : String) : Bool := s.data.all Char.isWhitespace

/-! ## Basic lemmas about the string primitives -/

theorem isPreB_append_self (a r : List Char) : isPreB a (a ++ r) = true := by
  induction a with
  | nil => rfl
  | cons c cs ih => simp [isPreB, ih]

theorem isPreB_or (a b s : List Char) (ha : isPreB a s = true)
    (hb : isPreB b s = true) : isPreB a b = true ∨ isPreB b a = true := by
  induction a generalizing b s with
  | nil => exact Or.inl rfl
  | cons x xs ih =>
    cases b with
    | nil => exact Or.inr rfl
    | cons y ys =>
      cases s with
      | nil => simp [isPreB] at ha
      | cons z zs =>
        simp only [isPreB, Bool.and_eq_true, beq_iff_eq] at ha hb
        rcases ha with ⟨hxz, ha'⟩
        rcases hb with ⟨hyz, hb'⟩
        rcases ih ys zs ha' hb' with h | h
        · exact Or.inl (by simp [isPreB, hxz, hyz, h])
        · exact Or.inr (by simp [isPreB, hxz, hyz, h])

theorem dropPref_eq_some {s pat r : List Char} :
    dropPref s pat = some r ↔ s = pat ++ r := by
  induction pat generalizing s with
  | nil =>
    cases s <;> simp [dropPref]
  | cons p ps ih =>
    cases s with
    | nil => simp [dropPref]
    | cons c cs =>
      by_cases h : c = p
      · subst h
        simp [dropPref, ih]
      · simp [dropPref, h, Ne.symm h]

/-! ## Route protection (`frontend/lib/auth/route-protection.ts`) -/

/-- The four user roles of `route-protection.ts`. -/
inductive UserRole
  | BUILDER
  | ORGANIZER
  | JUDGE
  | MENTOR
deriving DecidableEq

/-- The public route list of `isPublicRoute`. -/
def publicRoutes : List String :=
  [ "/", "/login", "/signup", "/features", "/pricing", "/docs",
    "/contact", "/privacy", "/terms", "/public-hackathons" ]

/-- `isPublicRoute(pathname)`: the route `/` must match exactly, every other
public route matches as a prefix. -/
def isPublicRoute (pathname : String) : Bool :=
  publicRoutes.any fun route =>
    if route = "/" then pathname == "/" else strStartsWith pathname route

/-- The protected route list of `isProtectedRoute`. -/
def protectedRoutes : List String := [ "/hackathons", "/profile", "/settings" ]

/-- `isProtectedRoute(pathname)`: prefix match against the protected list. -/
def isProtectedRoute (pathname : String) : Bool :=
  protectedRoutes.any fun route => strStartsWith pathname route

/-- The regex `^\/hackathons\/[^/]+\/<seg>`: the path starts with
`/hackathons/`, followed by one or more non-slash characters, followed by `/`
and then `seg` (anything may follow).  The `[^/]+` group is forced to be the
maximal slash-free run after `/hackathons/`, which `takeWhile`/`dropWhile`
compute. -/
def matchesHackathonSub (pathname seg : String) : Bool :=
  match dropPref pathname.data "/hackathons/".data with
  | none => false
  | some rest =>
    let mid := rest.takeWhile fun c => c != '/'
    let rest2 := rest.dropWhile fun c => c != '/'
    (!mid.isEmpty) && isPreB ('/' :: seg.data) rest2

/-- `getRequiredRoles(pathname)`: organizer-only patterns first, then the
judge-only pattern, then the builder/organizer patterns, else no role
restriction (`null`). -/
def getRequiredRoles (pathname : String) : Option (List UserRole) :=
  if matchesHackathonSub pathname "setup" || matchesHackathonSub pathname "participants" ||
      matchesHackathonSub pathname "prizes" || strStartsWith pathname "/api-settings" then
    some [UserRole.ORGANIZER]
  else if matchesHackathonSub pathname "judging" then
    some [UserRole.JUDGE]
  else if matchesHackathonSub pathname "teams" || matchesHackathonSub pathname "projects" ||
      matchesHackathonSub pathname "submissions" then
    some [UserRole.BUILDER, UserRole.ORGANIZER]
  else
    none

/-- `hasAccess(userRole, pathname)`. -/
def hasAccess (userRole : UserRole) (pathname : String) : Bool :=
  match getRequiredRoles pathname with
  | none => true
  | some requiredRoles => requiredRoles.contains userRole

/-! Spec-side route matrix (the sets named by the claim, stated from the
spec's route table, to be compared with the classifier above). -/

/-- Spec route matrix: the ORGANIZER-only set. -/
def specOrganizerOnlyRoute (p : String) : Bool :=
  matchesHackathonSub p "setup" || matchesHackathonSub p "participants" ||
    matchesHackathonSub p "prizes" || strStartsWith p "/api-settings"

/-- Spec route matrix: the JUDGE-only set. -/
def specJudgeOnlyRoute (p : String) : Bool := matchesHackathonSub p "judging"

/-- Spec route matrix: the BUILDER-or-ORGANIZER set. -/
def specSharedRoute (p : String) : Bool :=
  matchesHackathonSub p "teams" || matchesHackathonSub p "projects" ||
    matchesHackathonSub p "submissions"

/-- Spec route matrix: the public list (exact `/`, prefix for the rest). -/
def specPublicRoute (p : String) : Bool :=
  p == "/" ||
    [ "/login", "/signup", "/features", "/pricing", "/docs", "/contact",
      "/privacy", "/terms", "/public-hackathons" ].any fun r => strStartsWith p r

/-! Disjointness of the role-gated patterns: two `matchesHackathonSub`
patterns with incomparable segment words cannot match the same path, and no
`matchesHackathonSub` path lies under `/api-settings`. -/

theorem matchesHackathonSub_excl {p a b : String}
    (hmatch : matchesHackathonSub p a = true)
    (hab : isPreB a.data b.data = false) (hba : isPreB b.data a.data = false) :
    matchesHackathonSub p b = false := by
  unfold matchesHackathonSub at *
  cases hdp : dropPref p.data "/hackathons/".data with
  | none => simp [hdp]
  | some rest =>
    rw [hdp] at hmatch
    simp only [Bool.and_eq_true] at hmatch
    rcases hmatch with ⟨hmid, hpre⟩
    simp only [hmid, Bool.true_and]
    by_contra hcon
    simp only [Bool.not_eq_false] at hcon
    rcases isPreB_or _ _ _ hpre hcon with h | h
    · rw [show isPreB ('/' :: a.data) ('/' :: b.data) = isPreB a.data b.data by
        simp [isPreB]] at h
      rw [hab] at h
      exact Bool.false_ne_true h
    · rw [show isPreB ('/' :: b.data) ('/' :: a.data) = isPreB b.data a.data by
        simp [isPreB]] at h
      rw [hba] at h
      exact Bool.false_ne_true h

theorem matchesHackathonSub_not_api {p a : String}
    (hmatch : matchesHackathonSub p a = true) :
    strStartsWith p "/api-settings" = false := by
  unfold matchesHackathonSub at hmatch
  cases hdp : dropPref p.data "/hackathons/".data with
  | none => rw [hdp] at hmatch; exact absurd hmatch (by simp)
  | some rest =>
    have hp : p.data = "/hackathons/".data ++ rest := dropPref_eq_some.mp hdp
    by_contra hcon
    simp only [Bool.not_eq_false] at hcon
    unfold strStartsWith at hcon
    rw [hp] at hcon
    have h1 : isPreB "/hackathons/".data ("/hackathons/".data ++ rest) = true :=
      isPreB_append_self _ _
    rcases isPreB_or _ _ _ hcon h1 with h | h
    · exact absurd h (by decide)
    · exact absurd h (by decide)

/-- C1: the route classifier realises the spec's route matrix: ORGANIZER-only
patterns map to exactly `[ORGANIZER]`, the judging pattern to exactly
`[JUDGE]`, the shared patterns to exactly `[BUILDER, ORGANIZER]`, any other
path under a protected prefix is authentication-only (`getRequiredRoles`
returns `none` while `isProtectedRoute` holds), and every path of the public
list is public. -/
theorem getRequiredRoles_route_matrix (p : String) :
    (specOrganizerOnlyRoute p = true → getRequiredRoles p = some [UserRole.ORGANIZER]) ∧
    (specJudgeOnlyRoute p = true → getRequiredRoles p = some [UserRole.JUDGE]) ∧
    (specSharedRoute p = true →
      getRequiredRoles p = some [UserRole.BUILDER, UserRole.ORGANIZER]) ∧
    (isProtectedRoute p = true → specOrganizerOnlyRoute p = false →
      specJudgeOnlyRoute p = false → specSharedRoute p = false →
      isProtectedRoute p = true ∧ getRequiredRoles p = none) ∧
    (specPublicRoute p = true → isPublicRoute p = true) := by
  refine ⟨?_, ?_, ?_, ?_, ?_⟩
  · intro h
    unfold specOrganizerOnlyRoute at h
    unfold getRequiredRoles
    simp [h]
  · intro h
    unfold specJudgeOnlyRoute at h
    have h1 : matchesHackathonSub p "setup" = false :=
      matchesHackathonSub_excl h (by decide) (by decide)
    have h2 : matchesHackathonSub p "participants" = false :=
      matchesHackathonSub_excl h (by decide) (by decide)
    have h3 : matchesHackathonSub p "prizes" = false :=
      matchesHackathonSub_excl h (by decide) (by decide)
    have h4 := matchesHackathonSub_not_api h
    unfold getRequiredRoles
    simp [h, h1, h2, h3, h4]
  · intro h
    unfold specSharedRoute at h
    simp only [Bool.or_eq_true] at h
    have key : ∀ seg : String, matchesHackathonSub p seg = true →
        (matchesHackathonSub p "teams" || matchesHackathonSub p "projects" ||
          matchesHackathonSub p "submissions") = true →
        isPreB seg.data "setup".data = false → isPreB "setup".data seg.data = false →
        isPreB seg.data "participants".data = false →
        isPreB "participants".data seg.data = false →
        isPreB seg.data "prizes".data = false → isPreB "prizes".data seg.data = false →
        isPreB seg.data "judging".data = false → isPreB "judging".data seg.data = false →
        getRequiredRoles p = some [UserRole.BUILDER, UserRole.ORGANIZER] := by
      intro seg hm hsh e1 e2 e3 e4 e5 e6 e7 e8
      have h1 := matchesHackathonSub_excl hm e1 e2
      have h2 := matchesHackathonSub_excl hm e3 e4
      have h3 := matchesHackathonSub_excl hm e5 e6
      have h4 := matchesHackathonSub_excl hm e7 e8
      have h5 := matchesHackathonSub_not_api hm
      unfold getRequiredRoles
      simp [h1, h2, h3, h4, h5, hsh]
    rcases h with (h | h) | h
    · exact key "teams" h (by simp [h]) (by decide) (by decide) (by decide)
        (by decide) (by decide) (by decide) (by decide) (by decide)
    · exact key "projects" h (by simp [h]) (by decide) (by decide) (by decide)
        (by decide) (by decide) (by decide) (by decide) (by decide)
    · exact key "submissions" h (by simp [h]) (by decide) (by decide) (by decide)
        (by decide) (by decide) (by decide) (by decide) (by decide)
  · intro hp h1 h2 h3
    refine ⟨hp, ?_⟩
    unfold specOrganizerOnlyRoute at h1
    unfold specJudgeOnlyRoute at h2
    unfold specSharedRoute at h3
    simp only [Bool.or_eq_false_iff] at h1 h3
    unfold getRequiredRoles
    simp [h1.1.1.1, h1.1.1.2, h1.1.2, h1.2, h2, h3.1.1, h3.1.2, h3.2]
  · intro h
    unfold specPublicRoute at h
    simp only [Bool.or_eq_true, beq_iff_eq, List.any_cons, List.any_nil,
      Bool.or_false] at h
    unfold isPublicRoute publicRoutes
    simp only [List.any_cons, List.any_nil, Bool.or_eq_true]
    rcases h with h | h
    · subst h
      left
      decide
    · rcases h with h | h | h | h | h | h | h | h | h
      · exact Or.inr (Or.inl (by rw [if_neg (by decide)]; exact h))
      · exact Or.inr (Or.inr (Or.inl (by rw [if_neg (by decide)]; exact h)))
      · exact Or.inr (Or.inr (Or.inr (Or.inl (by rw [if_neg (by decide)]; exact h))))
      · exact Or.inr (Or.inr (Or.inr (Or.inr (Or.inl
          (by rw [if_neg (by decide)]; exact h)))))
      · exact Or.inr (Or.inr (Or.inr (Or.inr (Or.inr (Or.inl
          (by rw [if_neg (by decide)]; exact h))))))
      · exact Or.inr (Or.inr (Or.inr (Or.inr (Or.inr (Or.inr (Or.inl
          (by rw [if_neg (by decide)]; exact h)))))))
      · exact Or.inr (Or.inr (Or.inr (Or.inr (Or.inr (Or.inr (Or.inr (Or.inl
          (by rw [if_neg (by decide)]; exact h))))))))
      · exact Or.inr (Or.inr (Or.inr (Or.inr (Or.inr (Or.inr (Or.inr (Or.inr
          (Or.inl (by rw [if_neg (by decide)]; exact h)))))))))
      · exact Or.inr (Or.inr (Or.inr (Or.inr (Or.inr (Or.inr (Or.inr (Or.inr
          (Or.inr (Or.inl (by rw [if_neg (by decide)]; exact h))))))))))

/-- Witness for C1 at concrete paths from each row of the matrix. -/
theorem getRequiredRoles_route_matrix_witness :
    getRequiredRoles "/hackathons/h1/setup" = some [UserRole.ORGANIZER] ∧
    getRequiredRoles "/hackathons/h1/judging" = some [UserRole.JUDGE] ∧
    getRequiredRoles "/hackathons/h1/teams" = some [UserRole.BUILDER, UserRole.ORGANIZER] ∧
    (isProtectedRoute "/hackathons" = true ∧ getRequiredRoles "/hackathons" = none) ∧
    isPublicRoute "/login/reset" = true :=
  ⟨(getRequiredRoles_route_matrix "/hackathons/h1/setup").1 (by decide),
   (getRequiredRoles_route_matrix "/hackathons/h1/judging").2.1 (by decide),
   (getRequiredRoles_route_matrix "/hackathons/h1/teams").2.2.1 (by decide),
   (getRequiredRoles_route_matrix "/hackathons").2.2.2.1 (by decide) (by decide)
     (by decide) (by decide),
   (getRequiredRoles_route_matrix "/login/reset").2.2.2.2 (by decide)⟩

/-! ## Edge middleware (`frontend/middleware.ts`) -/

/-- The `PUBLIC_ROUTES` list of the middleware (identical to the
route-protection list). -/
def MW_PUBLIC_ROUTES : List String :=
  [ "/", "/login", "/signup", "/features", "/pricing", "/docs",
    "/contact", "/privacy", "/terms", "/public-hackathons" ]

/-- The `PROTECTED_ROUTES` list of the middleware. -/
def MW_PROTECTED_ROUTES : List String := [ "/hackathons", "/profile", "/settings" ]

/-- The `ORGANIZER_ROUTES` list of the middleware. -/
def ORGANIZER_ROUTES : List String := [ "/api-settings" ]

/-- The middleware's local `isPublicRoute`. -/
def mwIsPublicRoute (pathname : String) : Bool :=
  MW_PUBLIC_ROUTES.any fun route =>
    if route = "/" then pathname == "/" else strStartsWith pathname route

/-- The middleware's local `isProtectedRoute`. -/
def mwIsProtectedRoute (pathname : String) : Bool :=
  MW_PROTECTED_ROUTES.any fun route => strStartsWith pathname route

/-- `requiresOrganizer(pathname)`: prefix match against `ORGANIZER_ROUTES`. -/
def requiresOrganizer (pathname : String) : Bool :=
  ORGANIZER_ROUTES.any fun route => strStartsWith pathname route

/-- `requiresJudge(pathname)`. -/
def requiresJudge (pathname : String) : Bool :=
  matchesHackathonSub pathname "judging"

/-- `requiresOrganizerForHackathon(pathname)`. -/
def requiresOrganizerForHackathon (pathname : String) : Bool :=
  matchesHackathonSub pathname "setup" || matchesHackathonSub pathname "participants" ||
    matchesHackathonSub pathname "prizes"

/-- An incoming request as seen by the middleware: the path, the optional
`auth_token` cookie value and the optional `authorization` header. -/
structure MWRequest where
  pathname : String
  cookie_auth_token : Option String
  authorization : Option String

/-- The middleware's outcome: pass the request through, or redirect to the
login path carrying the original pathname in the `redirect` query
parameter. -/
inductive MWResponse
  | next
  | redirect (loginPath : String) (redirectParam : String)
deriving DecidableEq

/-- The token expression
`request.cookies.get(auth_token)?.value || request.headers.get(authorization)?.replace(...)`:
JavaScript `||` falls through on a falsy (empty) cookie value. -/
def mwToken (req : MWRequest) : Option String :=
  match req.cookie_auth_token with
  | some v =>
    if v ≠ "" then some v
    else req.authorization.map fun h => String.mk (replOnce h.data "Bearer ".data [])
  | none => req.authorization.map fun h => String.mk (replOnce h.data "Bearer ".data [])

/-- Truthiness of the token expression (`!token` in the source). -/
def mwTokenTruthy (req : MWRequest) : Bool :=
  match mwToken req with
  | some t => t != ""
  | none => false

/-- `middleware(request)`: static/API bypass first, then the public check,
then the token-presence redirect for auth-required routes. -/
def middleware (req : MWRequest) : MWResponse :=
  let p := req.pathname
  if strStartsWith p "/_next" || strStartsWith p "/api" || strStartsWith p "/static" ||
      p.data.contains '.' then
    MWResponse.next
  else if mwIsPublicRoute p then
    MWResponse.next
  else if (!mwTokenTruthy req) &&
      (mwIsProtectedRoute p || requiresOrganizer p || requiresJudge p ||
        requiresOrganizerForHackathon p) then
    MWResponse.redirect "/login" p
  else
    MWResponse.next

/-- C2 (code bug): the middleware itself lists `/api-settings` as an
ORGANIZER route, yet a completely unauthenticated request (no `auth_token`
cookie, no `authorization` header) for `/api-settings` is passed through
rather than redirected to login: the static-file/API bypass
`pathname.startsWith(/api)` swallows every `/api-settings` path before the
token check runs, so the `requiresOrganizer` guard is unreachable. -/
theorem middleware_api_settings_bypass :
    requiresOrganizer "/api-settings" = true ∧
    mwTokenTruthy ⟨"/api-settings", none, none⟩ = false ∧
    middleware ⟨"/api-settings", none, none⟩ = MWResponse.next := by
  refine ⟨by decide, by decide, ?_⟩
  decide

/-! ## Hackathon lifecycle (`lib/workflows/hackathon-lifecycle.ts`) -/

/-- The three hackathon statuses. -/
inductive HStatus
  | DRAFT
  | LIVE
  | CLOSED
deriving DecidableEq

/-- `VALID_STATUS_TRANSITIONS`: `DRAFT → [LIVE]`, `LIVE → [CLOSED]`,
`CLOSED → []`.  The source's record lookup is total on the three statuses, so
the `!validTransitions` fallback branch of the source is unreachable. -/
def VALID_STATUS_TRANSITIONS : HStatus → List HStatus
  | HStatus.DRAFT => [HStatus.LIVE]
  | HStatus.LIVE => [HStatus.CLOSED]
  | HStatus.CLOSED => []

/-- `canTransitionStatus(currentStatus, newStatus)`. -/
def canTransitionStatus (currentStatus newStatus : HStatus) : Bool :=
  (VALID_STATUS_TRANSITIONS currentStatus).contains newStatus

/-- `getValidTransitions(status)`. -/
def getValidTransitions (status : HStatus) : List HStatus :=
  VALID_STATUS_TRANSITIONS status

/-- `statusToString`, the string the source interpolates into messages. -/
def statusToString : HStatus → String
  | HStatus.DRAFT => "DRAFT"
  | HStatus.LIVE => "LIVE"
  | HStatus.CLOSED => "CLOSED"

/-- JavaScript `array.join(sep)` for `sep =`, written for the
source's `join(, )`. -/
def joinComma : List String → String
  | [] => ""
  | [s] => s
  | s :: rest => s ++ ", " ++ joinComma (rest)

/-- The invalid-transition error message of `transitionHackathonStatus`:
carries the attempted pair and the allowed transition set
(`join(, ) || none`). -/
def invalidTransitionMessage (currentStatus newStatus : HStatus) : String :=
  let v := joinComma ((VALID_STATUS_TRANSITIONS currentStatus).map statusToString)
  "Invalid status transition: " ++ statusToString currentStatus ++ " → " ++
    statusToString newStatus ++ ". Valid transitions: " ++
    (if v = "" then "none" else v)

/-- The `APIError` shape of `lib/error-handling` (message, HTTP status). -/
structure APIErrorE where
  message : String
  statusCode : Nat
deriving DecidableEq

/-- A hackathon row (only the fields the lifecycle code touches). -/
structure Hackathon where
  hackathon_id : String
  status : HStatus
deriving DecidableEq

/-- `transitionHackathonStatus(hackathonId, currentStatus, newStatus)`.
`updResp` is the external `updateHackathon` response for the single
status-field update; the second component is the list of update calls
actually issued (as `(hackathon_id, status)` patches). -/
def transitionHackathonStatus (hackathonId : String)
    (currentStatus newStatus : HStatus) (updResp : Except String Hackathon) :
    Except APIErrorE Hackathon × List (String × HStatus) :=
  let validTransitions := VALID_STATUS_TRANSITIONS currentStatus
  if !(validTransitions.contains newStatus) then
    (Except.error ⟨invalidTransitionMessage currentStatus newStatus, 400⟩, [])
  else
    match updResp with
    | Except.ok h => (Except.ok h, [(hackathonId, newStatus)])
    | Except.error e =>
      (Except.error ⟨"Failed to transition hackathon status: " ++ e, 500⟩,
        [(hackathonId, newStatus)])

/-- C3: the transition table is exactly `DRAFT→LIVE` and `LIVE→CLOSED`,
`CLOSED` is terminal, `transitionHackathonStatus` issues the single external
status update exactly for allowed pairs, and for every disallowed pair it
fails with the invalid-transition error (which carries the attempted pair and
the allowed set) while issuing no update call. -/
theorem canTransitionStatus_table (c n : HStatus) (hid : String)
    (updResp : Except String Hackathon) :
    (canTransitionStatus c n = true ↔
      ((c = HStatus.DRAFT ∧ n = HStatus.LIVE) ∨ (c = HStatus.LIVE ∧ n = HStatus.CLOSED))) ∧
    (c = HStatus.CLOSED → canTransitionStatus c n = false) ∧
    (canTransitionStatus c n = true →
      (transitionHackathonStatus hid c n updResp).2 = [(hid, n)]) ∧
    (canTransitionStatus c n = false →
      (transitionHackathonStatus hid c n updResp).1 =
        Except.error ⟨invalidTransitionMessage c n, 400⟩ ∧
      (transitionHackathonStatus hid c n updResp).2 = []) := by
  refine ⟨?_, ?_, ?_, ?_⟩
  · cases c <;> cases n <;> simp [canTransitionStatus, VALID_STATUS_TRANSITIONS]
  · intro h
    subst h
    cases n <;> decide
  · intro h
    unfold canTransitionStatus at h
    have h' : n ∈ VALID_STATUS_TRANSITIONS c := by simpa using h
    cases updResp <;> simp [transitionHackathonStatus, h']
  · intro h
    unfold canTransitionStatus at h
    have h' : n ∉ VALID_STATUS_TRANSITIONS c := by simpa using h
    simp [transitionHackathonStatus, h']

/-- Witness for C3: `DRAFT→LIVE` issues the update, `DRAFT→CLOSED` is
rejected with no update call. -/
theorem canTransitionStatus_table_witness :
    (transitionHackathonStatus "h1" HStatus.DRAFT HStatus.LIVE
      (Except.ok ⟨"h1", HStatus.LIVE⟩)).2 = [("h1", HStatus.LIVE)] ∧
    ((transitionHackathonStatus "h1" HStatus.DRAFT HStatus.CLOSED
        (Except.ok ⟨"h1", HStatus.CLOSED⟩)).1 =
      Except.error ⟨invalidTransitionMessage HStatus.DRAFT HStatus.CLOSED, 400⟩ ∧
      (transitionHackathonStatus "h1" HStatus.DRAFT HStatus.CLOSED
        (Except.ok ⟨"h1", HStatus.CLOSED⟩)).2 = []) :=
  ⟨(canTransitionStatus_table HStatus.DRAFT HStatus.LIVE "h1"
      (Except.ok ⟨"h1", HStatus.LIVE⟩)).2.2.1 (by decide),
   (canTransitionStatus_table HStatus.DRAFT HStatus.CLOSED "h1"
      (Except.ok ⟨"h1", HStatus.CLOSED⟩)).2.2.2 (by decide)⟩

/-! ## Rubric scoring (`lib/workflows/judging.ts`, `calculateTotalScore`)

JavaScript objects used as maps (`criteriaScores`, `criteria`) are modelled
as association lists with pairwise-distinct keys; `Object.entries` iteration
order is the list order, and indexing `obj[name]` is `alookup`. -/

/-- JavaScript property access `obj[key]` on an object modelled as an
association list (keys are unique in a JS object, so first match). -/
def alookup {α : Type} : List (String × α) → String → Option α
  | [], _ => none
  | (k, v) :: rest, key => if k = key then some v else alookup rest key

/-- The keys of an object. -/
def okeys {α : Type} (l : List (String × α)) : List String := l.map Prod.fst

/-- A rubric criterion definition as stored in `criteria_json`:
`name → (weight, max_score)`. -/
structure Criterion where
  weight : ℚ
  max_score : ℚ
deriving DecidableEq

/-- One iteration of the `for (const [criterionName, criterionScore] of
Object.entries(criteriaScores))` loop of `calculateTotalScore`: scores whose
name has no rubric criterion are skipped, otherwise the normalised score
(`score / max_score`) times the weight is accumulated together with the
weight. -/
def scoreFoldStep (criteria : List (String × Criterion)) (acc : ℚ × ℚ)
    (e : String × ℚ) : ℚ × ℚ :=
  match alookup criteria e.1 with
  | some c => (acc.1 + e.2 / c.max_score * c.weight, acc.2 + c.weight)
  | none => acc

/-- `calculateTotalScore(criteriaScores, criteria)`: fold the entries of the
score map, then `weightedSum / totalWeight * 100`, returning `0` when the
total weight is `0`. -/
def calculateTotalScore (criteriaScores : List (String × ℚ))
    (criteria : List (String × Criterion)) : ℚ :=
  let acc := criteriaScores.foldl (scoreFoldStep criteria) (0, 0)
  if acc.2 = 0 then 0 else acc.1 / acc.2 * 100

/-- The weighted-sum contribution of one score entry. -/
def wsContrib (criteria : List (String × Criterion)) (e : String × ℚ) : ℚ :=
  match alookup criteria e.1 with
  | some c => e.2 / c.max_score * c.weight
  | none => 0

/-- The total-weight contribution of one score entry. -/
def twContrib (criteria : List (String × Criterion)) (e : String × ℚ) : ℚ :=
  match alookup criteria e.1 with
  | some c => c.weight
  | none => 0

/-- The spec's formula for the total: sum over the rubric criteria of
`(score / max_score) * weight`, divided by the sum of the weights, times 100,
with the degenerate zero-weight rubric mapped to 0. -/
def specWeightedTotal (criteriaScores : List (String × ℚ))
    (criteria : List (String × Criterion)) : ℚ :=
  let ws := (criteria.map fun e =>
    ((alookup criteriaScores e.1).getD 0) / e.2.max_score * e.2.weight).sum
  let tw := (criteria.map fun e => e.2.weight).sum
  if tw = 0 then 0 else ws / tw * 100

theorem foldl_scoreFoldStep (criteria : List (String × Criterion))
    (scores : List (String × ℚ)) (a b : ℚ) :
    scores.foldl (scoreFoldStep criteria) (a, b) =
      (a + (scores.map (wsContrib criteria)).sum,
        b + (scores.map (twContrib criteria)).sum) := by
  induction scores generalizing a b with
  | nil => simp
  | cons e rest ih =>
    simp only [List.foldl_cons, List.map_cons, List.sum_cons]
    cases halk : alookup criteria e.1 with
    | none =>
      rw [show scoreFoldStep criteria (a, b) e = (a, b) by simp [scoreFoldStep, halk]]
      rw [ih]
      simp [wsContrib, twContrib, halk]
    | some c =>
      rw [show scoreFoldStep criteria (a, b) e =
          (a + e.2 / c.max_score * c.weight, b + c.weight) by simp [scoreFoldStep, halk]]
      rw [ih]
      simp only [wsContrib, twContrib, halk, Prod.mk.injEq]
      constructor <;> ring

theorem alookup_eq_none_of_not_mem {α : Type} {l : List (String × α)} {k : String}
    (h : k ∉ okeys l) : alookup l k = none := by
  induction l with
  | nil => rfl
  | cons e rest ih =>
    simp only [okeys, List.map_cons, List.mem_cons, not_or] at h
    unfold alookup
    rw [if_neg (fun he => h.1 (by cases e; simpa using he.symm))]
    exact ih (by simpa [okeys] using h.2)

theorem sum_if_single_key (scores : List (String × ℚ)) (n : String) (f : ℚ → ℚ)
    (hnd : (okeys scores).Nodup) (hmem : n ∈ okeys scores) :
    (scores.map fun e => if e.1 = n then f e.2 else 0).sum =
      f ((alookup scores n).getD 0) := by
  induction scores with
  | nil => simp [okeys] at hmem
  | cons e rest ih =>
    simp only [okeys, List.map_cons, List.nodup_cons] at hnd
    rcases hnd with ⟨hne, hndr⟩
    by_cases h : e.1 = n
    · subst h
      simp only [List.map_cons, List.sum_cons, if_pos rfl]
      have hz : (rest.map fun x => if x.1 = e.1 then f x.2 else 0).sum = 0 := by
        have : ∀ x ∈ rest, (if x.1 = e.1 then f x.2 else 0) = 0 := by
          intro x hx
          rw [if_neg]
          intro hx1
          exact hne (hx1 ▸ List.mem_map_of_mem Prod.fst hx)
        calc (rest.map fun x => if x.1 = e.1 then f x.2 else 0).sum
            = (rest.map fun _ => (0 : ℚ)).sum := by
              rw [List.map_congr_left this]
          _ = 0 := by simp
      rw [hz]
      cases e with
      | mk k v => simp [alookup]
    · simp only [List.map_cons, List.sum_cons, if_neg h]
      have hmem' : n ∈ okeys rest := by
        rcases (by simpa [okeys] using hmem : n = e.1 ∨ ∃ x, (n, x) ∈ rest) with h1 | h1
        · exact absurd h1.symm h
        · simp only [okeys, List.mem_map]
          rcases h1 with ⟨x, hx⟩
          exact ⟨(n, x), hx, rfl⟩
      rw [ih (by simpa [okeys] using hndr) hmem']
      cases e with
      | mk k v =>
        simp only [alookup]
        rw [if_neg (by simpa using h)]
        ring

theorem list_sum_map_add {α : Type} (l : List α) (f g : α → ℚ) :
    (l.map fun x => f x + g x).sum = (l.map f).sum + (l.map g).sum := by
  induction l with
  | nil => simp
  | cons x xs ih =>
    simp only [List.map_cons, List.sum_cons, ih]
    ring

theorem sum_scores_eq_sum_criteria (F : String → ℚ → Criterion → ℚ)
    (scores : List (String × ℚ)) (criteria : List (String × Criterion))
    (hs : (okeys scores).Nodup) (hc : (okeys criteria).Nodup)
    (hsub : ∀ k ∈ okeys criteria, k ∈ okeys scores) :
    (scores.map fun e =>
      match alookup criteria e.1 with
      | some c => F e.1 e.2 c
      | none => 0).sum =
    (criteria.map fun e => F e.1 ((alookup scores e.1).getD 0) e.2).sum := by
  induction criteria with
  | nil =>
    have : ∀ e ∈ scores, (match alookup ([] : List (String × Criterion)) e.1 with
        | some c => F e.1 e.2 c
        | none => 0) = (0 : ℚ) := by
      intro e _
      rfl
    rw [List.map_congr_left this]
    simp
  | cons nc rest ih =>
    rcases nc with ⟨n, c⟩
    simp only [okeys, List.map_cons, List.nodup_cons] at hc
    rcases hc with ⟨hnr, hcr⟩
    have hnone : alookup rest n = none :=
      alookup_eq_none_of_not_mem (by simpa [okeys] using hnr)
    have hpt : ∀ e ∈ scores, (match alookup ((n, c) :: rest) e.1 with
        | some c' => F e.1 e.2 c'
        | none => 0) =
        (if e.1 = n then F n e.2 c else 0) +
          (match alookup rest e.1 with
          | some c' => F e.1 e.2 c'
          | none => 0) := by
      intro e _
      by_cases he : e.1 = n
      · rw [if_pos he]
        rw [show alookup ((n, c) :: rest) e.1 = some c by simp [alookup, he.symm]]
        rw [show alookup rest e.1 = none by rw [he]; exact hnone]
        rw [he]
        ring_nf
      · rw [if_neg he]
        rw [show alookup ((n, c) :: rest) e.1 =
            if n = e.1 then some c else alookup rest e.1 from rfl,
          if_neg fun hne => he hne.symm]
        ring_nf
    rw [List.map_congr_left hpt, list_sum_map_add]
    have hsingle : (scores.map fun e => if e.1 = n then F n e.2 c else 0).sum =
        F n ((alookup scores n).getD 0) c :=
      sum_if_single_key scores n (fun v => F n v c) hs
        (hsub n (by simp [okeys]))
    have hrest := ih hcr fun k hk => hsub k (by simp [okeys] at hk ⊢; exact Or.inr hk)
    rw [hsingle, hrest]
    simp

/-- C4: `calculateTotalScore` computes the spec's normalised weighted total —
for every rubric and every score map with an in-range entry for each rubric
criterion it equals `(Σ (score/max)·weight) / (Σ weight) · 100`; on the
example rubric/scores of the spec the total is 80 within ±0.1 (exactly 80 in
exact arithmetic); all-max scores give exactly 100; all-zero scores give
exactly 0; and a total weight of 0 gives 0 with no division by zero. -/
theorem calculateTotalScore_weighted_formula :
    (∀ (scores : List (String × ℚ)) (criteria : List (String × Criterion)),
      (okeys scores).Nodup → (okeys criteria).Nodup →
      (∀ k ∈ okeys criteria, k ∈ okeys scores) →
      (∀ e ∈ criteria, 0 ≤ (alookup scores e.1).getD 0 ∧
        (alookup scores e.1).getD 0 ≤ e.2.max_score) →
      calculateTotalScore scores criteria = specWeightedTotal scores criteria) ∧
    |calculateTotalScore [("innovation", 8), ("technical", 7), ("design", 9)]
        [("innovation", ⟨4/10, 10⟩), ("technical", ⟨3/10, 10⟩), ("design", ⟨3/10, 10⟩)]
      - 80| ≤ 1/10 ∧
    calculateTotalScore [("innovation", 10), ("technical", 10), ("design", 10)]
        [("innovation", ⟨4/10, 10⟩), ("technical", ⟨3/10, 10⟩), ("design", ⟨3/10, 10⟩)]
      = 100 ∧
    calculateTotalScore [("innovation", 0), ("technical", 0), ("design", 0)]
        [("innovation", ⟨4/10, 10⟩), ("technical", ⟨3/10, 10⟩), ("design", ⟨3/10, 10⟩)]
      = 0 ∧
    (∀ (scores : List (String × ℚ)) (criteria : List (String × Criterion)),
      (scores.map (twContrib criteria)).sum = 0 →
      calculateTotalScore scores criteria = 0) := by
  refine ⟨?_, ?_, ?_, ?_, ?_⟩
  case refine_2 =>
    simp only [calculateTotalScore, List.foldl, scoreFoldStep, alookup,
      show ("innovation" : String) ≠ "technical" from by decide,
      show ("innovation" : String) ≠ "design" from by decide,
      show ("technical" : String) ≠ "innovation" from by decide,
      show ("technical" : String) ≠ "design" from by decide,
      show ("design" : String) ≠ "innovation" from by decide,
      show ("design" : String) ≠ "technical" from by decide, if_pos, if_neg]
    norm_num
  case refine_3 =>
    simp only [calculateTotalScore, List.foldl, scoreFoldStep, alookup,
      show ("innovation" : String) ≠ "technical" from by decide,
      show ("innovation" : String) ≠ "design" from by decide,
      show ("technical" : String) ≠ "innovation" from by decide,
      show ("technical" : String) ≠ "design" from by decide,
      show ("design" : String) ≠ "innovation" from by decide,
      show ("design" : String) ≠ "technical" from by decide, if_pos, if_neg]
    norm_num
  case refine_4 =>
    simp only [calculateTotalScore, List.foldl, scoreFoldStep, alookup,
      show ("innovation" : String) ≠ "technical" from by decide,
      show ("innovation" : String) ≠ "design" from by decide,
      show ("technical" : String) ≠ "innovation" from by decide,
      show ("technical" : String) ≠ "design" from by decide,
      show ("design" : String) ≠ "innovation" from by decide,
      show ("design" : String) ≠ "technical" from by decide, if_pos, if_neg]
    norm_num
  · intro scores criteria hs hc hsub _
    unfold calculateTotalScore specWeightedTotal
    rw [foldl_scoreFoldStep]
    simp only [zero_add]
    have hws := sum_scores_eq_sum_criteria
      (fun _ s c => s / c.max_score * c.weight) scores criteria hs hc hsub
    have htw := sum_scores_eq_sum_criteria
      (fun _ _ c => c.weight) scores criteria hs hc hsub
    have hws' : (scores.map (wsContrib criteria)).sum =
        (criteria.map fun e =>
          ((alookup scores e.1).getD 0) / e.2.max_score * e.2.weight).sum := by
      rw [← hws]
      rfl
    have htw' : (scores.map (twContrib criteria)).sum =
        (criteria.map fun e => e.2.weight).sum := by
      rw [← htw]
      rfl
    rw [hws', htw']
  · intro scores criteria h
    unfold calculateTotalScore
    rw [foldl_scoreFoldStep]
    simp [h]

/-- Witness for C4: the formula part applied to the spec's example rubric and
scores, and the zero-weight part applied to a one-criterion weight-0 rubric. -/
theorem calculateTotalScore_weighted_formula_witness :
    calculateTotalScore [("innovation", 8), ("technical", 7), ("design", 9)]
        [("innovation", ⟨4/10, 10⟩), ("technical", ⟨3/10, 10⟩), ("design", ⟨3/10, 10⟩)]
      = specWeightedTotal [("innovation", 8), ("technical", 7), ("design", 9)]
        [("innovation", ⟨4/10, 10⟩), ("technical", ⟨3/10, 10⟩), ("design", ⟨3/10, 10⟩)] ∧
    calculateTotalScore [("solo", 10)] [("solo", ⟨0, 10⟩)] = 0 :=
  ⟨calculateTotalScore_weighted_formula.1 _ _ (by decide) (by decide) (by decide)
      (by
        intro e he
        fin_cases he <;>
          norm_num [alookup,
            show ("innovation" : String) ≠ "technical" from by decide,
            show ("innovation" : String) ≠ "design" from by decide,
            show ("technical" : String) ≠ "innovation" from by decide,
            show ("technical" : String) ≠ "design" from by decide,
            show ("design" : String) ≠ "innovation" from by decide,
            show ("design" : String) ≠ "technical" from by decide]),
   calculateTotalScore_weighted_formula.2.2.2.2 [("solo", 10)] [("solo", ⟨0, 10⟩)]
      (by norm_num [twContrib, alookup])⟩

/-! ## Judging workflow (`lib/workflows/judging.ts`, `scoreSubmission`) -/

/-- The phase tag of a `JudgingError`. -/
inductive JPhase
  | validation
  | rubric_fetch
  | score_create
deriving DecidableEq

/-- Structured rendering of the `JudgingError` message strings of the
source (natural-language interpolations are modelled by their parts). -/
inductive JMsg
  | submissionIdRequired
  | judgeIdRequired
  | criterionScoreRequired
  | rubricFetchFailed (detail : String)
  | invalidCriteriaFormat
  | missingCriterion (name : String)
  | scoreOutOfRange (name : String) (maxScore : ℚ)
  | scoreCreateFailed (detail : String)
deriving DecidableEq

/-- A `JudgingError`: phase, message, `canRetry` flag and the optional
submission id attached to the error. -/
structure JudgingError where
  phase : JPhase
  msg : JMsg
  canRetry : Bool
  submissionId : Option String
deriving DecidableEq

/-- A rubric row as the judging workflow sees it; `criteriaParse` is the
outcome of `JSON.parse(rubric.criteria_json)` (`none` = the parse throws,
i.e. a malformed payload). -/
structure RubricR where
  rubric_id : String
  hackathon_id : String
  criteriaParse : Option (List (String × Criterion))
deriving DecidableEq

/-- `JudgingInput`. -/
structure JudgingInput where
  hackathonId : String
  submissionId : String
  judgeId : String
  criteriaScores : List (String × ℚ)
  feedback : Option String

/-- The score record the workflow passes to `createScore` and returns:
`submission_id`, `judge_id`, serialized per-criterion scores (`score_json`),
computed `total_score` and the feedback. -/
structure ScoreRow where
  submission_id : String
  judge_id : String
  score_json : List (String × ℚ)
  total_score : ℚ
  feedback : Option String
deriving DecidableEq

/-- `JudgingResult`. -/
structure JudgingResult where
  score : ScoreRow
  totalScore : ℚ
deriving DecidableEq

/-- The external calls the judging workflow can issue. -/
inductive JudgingCall
  | listRubricsCall (hackathon_id : String) (limit : Nat)
  | createScoreCall (row : ScoreRow)
deriving DecidableEq

/-- The per-criterion validation loop of `scoreSubmission` (iterating
`Object.keys(criteria)` in order): a criterion with no entry in
`criteriaScores` yields the missing-criterion error; an entry outside
`[0, max_score]` yields the out-of-range error naming the criterion and its
bound; otherwise continue. -/
def validateScores : List (String × Criterion) → List (String × ℚ) → Option JMsg
  | [], _ => none
  | (n, c) :: rest, scores =>
    match alookup scores n with
    | none => some (JMsg.missingCriterion n)
    | some s =>
      if s < 0 ∨ s > c.max_score then some (JMsg.scoreOutOfRange n c.max_score)
      else validateScores rest scores

/-- `scoreSubmission(input)`.  `listRubricsResp` is the response of the
`listRubrics({hackathon_id, limit: 1})` call, `createScoreResp` the response
of the `createScore` call (when reached); the second component is the trace
of external calls issued. -/
def scoreSubmission (input : JudgingInput)
    (listRubricsResp : Except String (List RubricR))
    (createScoreResp : Except String Unit) :
    Except JudgingError JudgingResult × List JudgingCall :=
  if isBlank input.submissionId then
    (Except.error ⟨JPhase.validation, JMsg.submissionIdRequired, false, none⟩, [])
  else if isBlank input.judgeId then
    (Except.error ⟨JPhase.validation, JMsg.judgeIdRequired, false, none⟩, [])
  else if input.criteriaScores.isEmpty then
    (Except.error ⟨JPhase.validation, JMsg.criterionScoreRequired, false, none⟩, [])
  else
    let fetchCall := JudgingCall.listRubricsCall input.hackathonId 1
    match listRubricsResp with
    | Except.error e =>
      (Except.error ⟨JPhase.rubric_fetch,
        JMsg.rubricFetchFailed e, true, none⟩, [fetchCall])
    | Except.ok [] =>
      (Except.error ⟨JPhase.rubric_fetch,
        JMsg.rubricFetchFailed "No rubric found for this hackathon", true, none⟩,
        [fetchCall])
    | Except.ok (rubric :: _) =>
      match rubric.criteriaParse with
      | none =>
        (Except.error ⟨JPhase.validation, JMsg.invalidCriteriaFormat, false,
          some input.submissionId⟩, [fetchCall])
      | some criteria =>
        match validateScores criteria input.criteriaScores with
        | some m =>
          (Except.error ⟨JPhase.validation, m, false, some input.submissionId⟩,
            [fetchCall])
        | none =>
          let totalScore := calculateTotalScore input.criteriaScores criteria
          let row : ScoreRow := ⟨input.submissionId, input.judgeId,
            input.criteriaScores, totalScore, input.feedback⟩
          match createScoreResp with
          | Except.error e =>
            (Except.error ⟨JPhase.score_create, JMsg.scoreCreateFailed e, true,
              some input.submissionId⟩,
              [fetchCall, JudgingCall.createScoreCall row])
          | Except.ok _ =>
            (Except.ok ⟨row, totalScore⟩,
              [fetchCall, JudgingCall.createScoreCall row])

/-- The spec-side relation "this validation message names an actual offender":
a missing-criterion message names a rubric criterion with no score entry, an
out-of-range message names a rubric criterion whose supplied score lies
outside `[0, max_score]` and carries that criterion's bound. -/
def namesOffender (criteria : List (String × Criterion))
    (scores : List (String × ℚ)) : JMsg → Prop
  | JMsg.missingCriterion m => ∃ c, (m, c) ∈ criteria ∧ alookup scores m = none
  | JMsg.scoreOutOfRange m b => ∃ c, (m, c) ∈ criteria ∧ b = c.max_score ∧
      ∃ s, alookup scores m = some s ∧ (s < 0 ∨ s > c.max_score)
  | _ => False

theorem validateScores_some_namesOffender
    (criteria : List (String × Criterion)) (scores : List (String × ℚ)) (m : JMsg)
    (h : validateScores criteria scores = some m) : namesOffender criteria scores m := by
  induction criteria with
  | nil => simp [validateScores] at h
  | cons nc rest ih =>
    rcases nc with ⟨n, c⟩
    unfold validateScores at h
    cases halk : alookup scores n with
    | none =>
      rw [halk] at h
      injection h with h
      subst h
      exact ⟨c, List.mem_cons_self _ _, halk⟩
    | some s =>
      rw [halk] at h
      dsimp only at h
      by_cases hr : s < 0 ∨ s > c.max_score
      · rw [if_pos hr] at h
        injection h with h
        subst h
        exact ⟨c, List.mem_cons_self _ _, rfl, s, halk, hr⟩
      · rw [if_neg hr] at h
        have := ih h
        cases m with
        | missingCriterion m' =>
          rcases this with ⟨c', hmem, hnone⟩
          exact ⟨c', List.mem_cons_of_mem _ hmem, hnone⟩
        | scoreOutOfRange m' b =>
          rcases this with ⟨c', hmem, hb, s', hs', hr'⟩
          exact ⟨c', List.mem_cons_of_mem _ hmem, hb, s', hs', hr'⟩
        | submissionIdRequired => exact this
        | judgeIdRequired => exact this
        | criterionScoreRequired => exact this
        | rubricFetchFailed d => exact this
        | invalidCriteriaFormat => exact this
        | scoreCreateFailed d => exact this

theorem validateScores_isSome_of_offender
    (criteria : List (String × Criterion)) (scores : List (String × ℚ))
    (n : String) (c : Criterion) (hmem : (n, c) ∈ criteria)
    (hoff : alookup scores n = none ∨
      ∃ s, alookup scores n = some s ∧ (s < 0 ∨ s > c.max_score)) :
    validateScores criteria scores ≠ none := by
  induction criteria with
  | nil => simp at hmem
  | cons nc rest ih =>
    rcases nc with ⟨n', c'⟩
    rcases List.mem_cons.mp hmem with heq | hmem'
    · injection heq with h1 h2
      subst h1
      subst h2
      unfold validateScores
      rcases hoff with hnone | ⟨s, hs, hr⟩
      · rw [hnone]
        simp
      · rw [hs]
        dsimp only
        rw [if_pos hr]
        simp
    · unfold validateScores
      cases halk : alookup scores n' with
      | none => simp
      | some s =>
        dsimp only
        by_cases hr : s < 0 ∨ s > c'.max_score
        · rw [if_pos hr]
          simp
        · rw [if_neg hr]
          exact ih hmem'

/-- C5: `scoreSubmission` raises a non-retryable validation error before any
network call when the submission id, the judge id or the score map is empty,
and — once the rubric is fetched and parsed — fails fast on a missing or
out-of-range criterion score with a non-retryable validation error naming an
offending criterion (and its bound, in the out-of-range case), never reaching
the `createScore` call. -/
theorem scoreSubmission_validation (input : JudgingInput)
    (listRubricsResp : Except String (List RubricR))
    (createScoreResp : Except String Unit) :
    (isBlank input.submissionId = true →
      scoreSubmission input listRubricsResp createScoreResp =
        (Except.error ⟨JPhase.validation, JMsg.submissionIdRequired, false, none⟩, [])) ∧
    (isBlank input.submissionId = false → isBlank input.judgeId = true →
      scoreSubmission input listRubricsResp createScoreResp =
        (Except.error ⟨JPhase.validation, JMsg.judgeIdRequired, false, none⟩, [])) ∧
    (isBlank input.submissionId = false → isBlank input.judgeId = false →
      input.criteriaScores = [] →
      scoreSubmission input listRubricsResp createScoreResp =
        (Except.error ⟨JPhase.validation, JMsg.criterionScoreRequired, false, none⟩, [])) ∧
    (∀ (rubric : RubricR) (rbs : List RubricR)
      (criteria : List (String × Criterion)) (n : String) (c : Criterion),
      isBlank input.submissionId = false → isBlank input.judgeId = false →
      input.criteriaScores ≠ [] →
      listRubricsResp = Except.ok (rubric :: rbs) →
      rubric.criteriaParse = some criteria →
      (n, c) ∈ criteria →
      (alookup input.criteriaScores n = none ∨
        ∃ s, alookup input.criteriaScores n = some s ∧ (s < 0 ∨ s > c.max_score)) →
      ∃ m, (scoreSubmission input listRubricsResp createScoreResp).1 =
          Except.error ⟨JPhase.validation, m, false, some input.submissionId⟩ ∧
        namesOffender criteria input.criteriaScores m ∧
        (scoreSubmission input listRubricsResp createScoreResp).2 =
          [JudgingCall.listRubricsCall input.hackathonId 1]) := by
  refine ⟨?_, ?_, ?_, ?_⟩
  · intro h
    simp [scoreSubmission, h]
  · intro h1 h2
    simp [scoreSubmission, h1, h2]
  · intro h1 h2 h3
    simp [scoreSubmission, h1, h2, h3]
  · intro rubric rbs criteria n c h1 h2 h3 hresp hparse hmem hoff
    subst hresp
    cases hv : validateScores criteria input.criteriaScores with
    | none => exact absurd hv (validateScores_isSome_of_offender _ _ n c hmem hoff)
    | some m =>
      refine ⟨m, ?_, validateScores_some_namesOffender _ _ _ hv, ?_⟩
      · simp [scoreSubmission, h1, h2, h3, hparse, hv]
      · simp [scoreSubmission, h1, h2, h3, hparse, hv]

/-- Witness for C5: an empty submission id is rejected with no network call,
and a missing `design` score (on the spec's example rubric) is rejected after
only the rubric fetch, naming the missing criterion. -/
theorem scoreSubmission_validation_witness :
    scoreSubmission ⟨"h1", "", "j1", [("innovation", 8)], none⟩
        (Except.ok []) (Except.ok ()) =
      (Except.error ⟨JPhase.validation, JMsg.submissionIdRequired, false, none⟩, []) ∧
    ∃ m, (scoreSubmission ⟨"h1", "s1", "j1", [("innovation", 8), ("technical", 7)], none⟩
        (Except.ok [⟨"r1", "h1", some [("innovation", ⟨4/10, 10⟩),
          ("technical", ⟨3/10, 10⟩), ("design", ⟨3/10, 10⟩)]⟩])
        (Except.ok ())).1 =
        Except.error ⟨JPhase.validation, m, false, some "s1"⟩ ∧
      namesOffender [("innovation", ⟨4/10, 10⟩), ("technical", ⟨3/10, 10⟩),
          ("design", ⟨3/10, 10⟩)]
        [("innovation", 8), ("technical", 7)] m ∧
      (scoreSubmission ⟨"h1", "s1", "j1", [("innovation", 8), ("technical", 7)], none⟩
        (Except.ok [⟨"r1", "h1", some [("innovation", ⟨4/10, 10⟩),
          ("technical", ⟨3/10, 10⟩), ("design", ⟨3/10, 10⟩)]⟩])
        (Except.ok ())).2 = [JudgingCall.listRubricsCall "h1" 1] :=
  ⟨(scoreSubmission_validation ⟨"h1", "", "j1", [("innovation", 8)], none⟩
      (Except.ok []) (Except.ok ())).1 (by decide),
   (scoreSubmission_validation ⟨"h1", "s1", "j1",
        [("innovation", 8), ("technical", 7)], none⟩
      (Except.ok [⟨"r1", "h1", some [("innovation", ⟨4/10, 10⟩),
        ("technical", ⟨3/10, 10⟩), ("design", ⟨3/10, 10⟩)]⟩]) (Except.ok ())).2.2.2
      ⟨"r1", "h1", some [("innovation", ⟨4/10, 10⟩), ("technical", ⟨3/10, 10⟩),
        ("design", ⟨3/10, 10⟩)]⟩ [] _ "design" ⟨3/10, 10⟩
      (by decide) (by decide) (by decide) rfl rfl
      (by simp)
      (Or.inl (by
        simp [alookup, show ("innovation" : String) ≠ "design" from by decide,
          show ("technical" : String) ≠ "design" from by decide]))⟩

/-! ## Score persistence (`frontend/lib/api/scores.ts`) -/

/-- A per-criterion score entry of the scores API
(`{criterion_id, score}`). -/
structure CriterionScore where
  criterion_id : String
  score : ℚ
deriving DecidableEq

/-- The `calculateTotalScore` of `lib/api/scores.ts` (a different function
from the judging workflow's): the plain sum
`criterionScores.reduce((sum, cs) => sum + cs.score, 0)`. -/
def scoresApiCalculateTotalScore (criterionScores : List CriterionScore) : ℚ :=
  criterionScores.foldl (fun sum cs => sum + cs.score) 0

/-- The argument object of `createScore` as seen through the fields the
function actually reads (`submission_id`, `judge_participant_id`,
`criterion_scores`, `feedback`); absent properties of the dynamic JavaScript
object are `none`. -/
structure CreateScoreArgs where
  submission_id : String
  judge_participant_id : Option String
  criterion_scores : Option (List CriterionScore)
  feedback : Option String

/-- The row `createScore` inserts into the `scores` table. -/
structure DBScoreRow where
  score_id : String
  submission_id : String
  judge_participant_id : Option String
  score_json : Option (List CriterionScore)
  total_score : ℚ
  feedback : Option String
deriving DecidableEq

/-- `createScore(input)` of `lib/api/scores.ts`: recomputes the total by
summing `input.criterion_scores` and inserts the row.  When the argument
object carries no `criterion_scores` property (it is `undefined`),
`input.criterion_scores.reduce(...)` throws a `TypeError` before any insert
is attempted.  `newId` models `crypto.randomUUID()`, `insertResp` the insert
response; the second component is the list of rows written to the store. -/
def createScore (input : CreateScoreArgs) (newId : String)
    (insertResp : Except String Unit) :
    Except String DBScoreRow × List DBScoreRow :=
  match input.criterion_scores with
  | none => (Except.error "TypeError: cannot read reduce of undefined", [])
  | some cs =>
    let totalScore := scoresApiCalculateTotalScore cs
    let score : DBScoreRow :=
      ⟨newId, input.submission_id, input.judge_participant_id, some cs,
        totalScore, input.feedback⟩
    match insertResp with
    | Except.ok _ => (Except.ok score, [score])
    | Except.error e =>
      (Except.error (if e = "" then "Failed to create score" else e), [score])

/-- The object literal the judging workflow passes to `createScore`
(`{submission_id, judge_id, score_json, total_score, feedback}`), viewed
through the fields `createScore` reads: it carries no
`judge_participant_id` and no `criterion_scores` property. -/
def workflowCreateScoreArgs (input : JudgingInput) : CreateScoreArgs :=
  ⟨input.submissionId, none, none, input.feedback⟩

/-- `scoreSubmission` composed with the real `createScore` of
`lib/api/scores.ts` (instead of an abstract response): the `createScore`
outcome that the workflow observes, together with the rows actually written
to the `scores` table. -/
def scoreSubmissionComposed (input : JudgingInput)
    (listRubricsResp : Except String (List RubricR)) (newScoreId : String)
    (insertResp : Except String Unit) :
    (Except JudgingError JudgingResult × List JudgingCall) × List DBScoreRow :=
  let cs := createScore (workflowCreateScoreArgs input) newScoreId insertResp
  (scoreSubmission input listRubricsResp (cs.1.map fun _ => ()), cs.2)

/-- C6 (code bug): the judging workflow and the scores API disagree on the
`createScore` contract.  The workflow passes
`{submission_id, judge_id, score_json, total_score, feedback}` while
`createScore` reads `criterion_scores` (absent) and would store
`judge_participant_id` (absent) — so on a fully valid scoring input whose
rubric fetch succeeds and whose store would accept the insert, `createScore`
throws before inserting anything, the workflow reports a retryable
`score_create` failure, and no score row is ever persisted. -/
theorem scoreSubmission_createScore_contract_mismatch :
    (createScore (workflowCreateScoreArgs ⟨"h1", "s1", "j1", [("innovation", 8)], none⟩)
        "sc1" (Except.ok ())).2 = [] ∧
    (scoreSubmissionComposed ⟨"h1", "s1", "j1", [("innovation", 8)], none⟩
        (Except.ok [⟨"r1", "h1", some [("innovation", ⟨1, 10⟩)]⟩]) "sc1"
        (Except.ok ())).1.1 =
      Except.error ⟨JPhase.score_create,
        JMsg.scoreCreateFailed "TypeError: cannot read reduce of undefined", true,
        some "s1"⟩ ∧
    (scoreSubmissionComposed ⟨"h1", "s1", "j1", [("innovation", 8)], none⟩
        (Except.ok [⟨"r1", "h1", some [("innovation", ⟨1, 10⟩)]⟩]) "sc1"
        (Except.ok ())).2 = [] := by
  refine ⟨rfl, ?_, rfl⟩
  simp [scoreSubmissionComposed, createScore, workflowCreateScoreArgs,
    scoreSubmission, isBlank, validateScores, alookup, Except.map]
  norm_num

/-! ## Rubric creation (`frontend/lib/api/rubrics.ts` and the
`useCreateRubric` mutation of the rubrics hook) -/

/-- A rubric criterion of the rubrics API. -/
structure RubricCriterion where
  criterion_id : String
  name : String
  description : String
  weight : ℚ
  max_score : ℚ
deriving DecidableEq

/-- `CreateRubricInput`. -/
structure CreateRubricInput where
  hackathon_id : String
  title : String
  criteria : List RubricCriterion

/-- The rubric row written to the `rubrics` table (`criteria_json` holds
`JSON.stringify(input.criteria)`, serialisation abstracted). -/
structure RubricRow where
  rubric_id : String
  hackathon_id : String
  title : String
  criteria_json : List RubricCriterion
deriving DecidableEq

/-- The per-criterion loop of `validateCriteria` (first offender wins):
blank name, weight outside `(0, 1]`, or non-positive max score. -/
def firstCriterionIssue : List RubricCriterion → Option String
  | [] => none
  | c :: rest =>
    if isBlank c.name then some "All criteria must have a name"
    else if c.weight ≤ 0 ∨ c.weight > 1 then
      some "Criterion weights must be between 0 and 1"
    else if c.max_score ≤ 0 then some "Max score must be greater than 0"
    else firstCriterionIssue rest

/-- `validateCriteria(criteria)`: `null` (here `none`) means valid; otherwise
the first error message. -/
def validateCriteria (criteria : List RubricCriterion) : Option String :=
  if criteria.length = 0 then some "At least one criterion is required"
  else
    let totalWeight := criteria.foldl (fun sum c => sum + c.weight) 0
    if |totalWeight - 1| > 1 / 100 then some "Criterion weights must sum to 1.0"
    else firstCriterionIssue criteria

/-- `createRubric(input)` of `lib/api/rubrics.ts`: builds the row and inserts
it — with no validation of the criteria.  `newId` models
`crypto.randomUUID()`; the second component is the list of rows written. -/
def createRubric (input : CreateRubricInput) (newId : String)
    (insertResp : Except String Unit) : Except String RubricRow × List RubricRow :=
  let rubric : RubricRow := ⟨newId, input.hackathon_id, input.title, input.criteria⟩
  match insertResp with
  | Except.ok _ => (Except.ok rubric, [rubric])
  | Except.error e =>
    (Except.error (if e = "" then "Failed to create rubric" else e), [rubric])

/-- The `mutationFn` of the `useCreateRubric` hook: run `validateCriteria`
first and throw its message without calling `createRubric`; otherwise defer
to `createRubric`. -/
def useCreateRubricMutation (input : CreateRubricInput) (newId : String)
    (insertResp : Except String Unit) : Except String RubricRow × List RubricRow :=
  match validateCriteria input.criteria with
  | some validationError => (Except.error validationError, [])
  | none => createRubric input newId insertResp

/-- C7 counterexample: `createRubric` itself enforces nothing — a rubric with
an empty criteria set (violating the claimed non-emptiness invariant, as
`validateCriteria` itself attests) is written to the store and returned
successfully. -/
theorem createRubric_writes_unvalidated_rubric :
    (createRubric ⟨"h1", "Judging", []⟩ "r1" (Except.ok ())).2 =
      [⟨"r1", "h1", "Judging", []⟩] ∧
    (createRubric ⟨"h1", "Judging", []⟩ "r1" (Except.ok ())).1 =
      Except.ok ⟨"r1", "h1", "Judging", []⟩ ∧
    validateCriteria [] = some "At least one criterion is required" :=
  ⟨rfl, rfl, rfl⟩

theorem firstCriterionIssue_none (criteria : List RubricCriterion)
    (h : firstCriterionIssue criteria = none) :
    ∀ c ∈ criteria, isBlank c.name = false ∧
      0 < c.weight ∧ c.weight ≤ 1 ∧ 0 < c.max_score := by
  induction criteria with
  | nil => simp
  | cons c rest ih =>
    unfold firstCriterionIssue at h
    by_cases h1 : isBlank c.name
    · rw [if_pos h1] at h
      exact absurd h (by simp)
    · rw [if_neg h1] at h
      by_cases h2 : c.weight ≤ 0 ∨ c.weight > 1
      · rw [if_pos h2] at h
        exact absurd h (by simp)
      · rw [if_neg h2] at h
        by_cases h3 : c.max_score ≤ 0
        · rw [if_pos h3] at h
          exact absurd h (by simp)
        · rw [if_neg h3] at h
          push_neg at h2 h3
          intro x hx
          rcases List.mem_cons.mp hx with rfl | hx'
          · exact ⟨by simpa using h1, h2.1, h2.2, h3⟩
          · exact ih h x hx'

theorem foldl_weight_sum (l : List RubricCriterion) (a : ℚ) :
    l.foldl (fun sum c => sum + c.weight) a = a + (l.map RubricCriterion.weight).sum := by
  induction l generalizing a with
  | nil => simp
  | cons c rest ih =>
    simp only [List.foldl_cons, List.map_cons, List.sum_cons, ih]
    ring

/-- C7 (amended): the rubric-creation *mutation* (`useCreateRubric`) runs
`validateCriteria` before `createRubric`, so every rubric it successfully
creates has a non-empty criteria set whose weights sum to 1 within 0.01, with
every weight in `(0, 1]` and every max score positive, and an invalid
criteria set is rejected before anything is written; the bare `createRubric`
API function performs no such check (see the counterexample). -/
theorem useCreateRubric_enforces_criteria_invariants (input : CreateRubricInput)
    (newId : String) (insertResp : Except String Unit) :
    (∀ r, (useCreateRubricMutation input newId insertResp).1 = Except.ok r →
      r.criteria_json = input.criteria ∧
      input.criteria ≠ [] ∧
      |(input.criteria.map RubricCriterion.weight).sum - 1| ≤ 1 / 100 ∧
      ∀ c ∈ input.criteria, 0 < c.weight ∧ c.weight ≤ 1 ∧ 0 < c.max_score) ∧
    (validateCriteria input.criteria ≠ none →
      (useCreateRubricMutation input newId insertResp).2 = []) := by
  constructor
  · intro r hok
    unfold useCreateRubricMutation at hok
    cases hval : validateCriteria input.criteria with
    | some err =>
      rw [hval] at hok
      exact absurd hok (by simp)
    | none =>
      rw [hval] at hok
      unfold validateCriteria at hval
      by_cases hlen : input.criteria.length = 0
      · rw [if_pos hlen] at hval
        exact absurd hval (by simp)
      · rw [if_neg hlen] at hval
        simp only at hval
        by_cases hw : |input.criteria.foldl (fun sum c => sum + c.weight) 0 - 1| > 1 / 100
        · rw [if_pos hw] at hval
          exact absurd hval (by simp)
        · rw [if_neg hw] at hval
          have hcrit := firstCriterionIssue_none _ hval
          have hjson : r.criteria_json = input.criteria := by
            unfold createRubric at hok
            cases insertResp with
            | ok _ =>
              simp only at hok
              injection hok with hok
              rw [← hok]
            | error e =>
              simp only at hok
              exact absurd hok (by simp)
          refine ⟨hjson, fun hnil => hlen (by simp [hnil]), ?_,
            fun c hc => ((hcrit c hc).2 : _)⟩
          rw [foldl_weight_sum, zero_add] at hw
          exact le_of_not_lt hw
  · intro hne
    unfold useCreateRubricMutation
    cases hval : validateCriteria input.criteria with
    | some err => rfl
    | none => exact absurd hval hne

/-- Witness for C7's amended theorem: a valid one-criterion rubric (weight 1,
max score 10) goes through the mutation and satisfies all invariants. -/
theorem useCreateRubric_enforces_criteria_invariants_witness :
    (⟨"r1", "h1", "Judging", [⟨"c1", "Innovation", "", 1, 10⟩]⟩ : RubricRow).criteria_json
        = [⟨"c1", "Innovation", "", 1, 10⟩] ∧
    [(⟨"c1", "Innovation", "", 1, 10⟩ : RubricCriterion)] ≠ [] ∧
    |(([⟨"c1", "Innovation", "", 1, 10⟩] : List RubricCriterion).map
        RubricCriterion.weight).sum - 1| ≤ 1 / 100 ∧
    ∀ c ∈ [(⟨"c1", "Innovation", "", 1, 10⟩ : RubricCriterion)],
      0 < c.weight ∧ c.weight ≤ 1 ∧ 0 < c.max_score :=
  (useCreateRubric_enforces_criteria_invariants
      ⟨"h1", "Judging", [⟨"c1", "Innovation", "", 1, 10⟩]⟩ "r1" (Except.ok ())).1
    ⟨"r1", "h1", "Judging", [⟨"c1", "Innovation", "", 1, 10⟩]⟩
    (by
      unfold useCreateRubricMutation validateCriteria
      norm_num [firstCriterionIssue, isBlank, createRubric]
      rw [if_neg (by decide)])

/-! ## Hackathon setup workflow (`createHackathonWithSetup`) -/

/-- `CreateHackathonInput` (fields forwarded to `createHackathon`). -/
structure CreateHackathonInput where
  name : String
  description : String
  start_at : String
  end_at : String
deriving DecidableEq

/-- `CreateTrackInput` (before the hackathon id is attached). -/
structure TrackInput where
  name : String
  description : String
deriving DecidableEq

/-- A created track row. -/
structure Track where
  track_id : String
  hackathon_id : String
  name : String
  description : String
deriving DecidableEq

/-- The lifecycle workflow's rubric input: a pre-serialised
`criteria_json` string (this is the shape the workflow checks with
`!rubricInput.criteria_json`). -/
structure RubricInputL where
  criteria_json : String
deriving DecidableEq

/-- A created rubric row as returned by `createRubric` to the workflow. -/
structure RubricL where
  rubric_id : String
  hackathon_id : String
  criteria_json : String
deriving DecidableEq

/-- `HackathonLifecycleInput`. -/
structure HackathonLifecycleInput where
  hackathon : CreateHackathonInput
  tracks : List TrackInput
  rubric : RubricInputL

/-- `HackathonLifecycleResult`. -/
structure LifecycleResult where
  hackathon : Hackathon
  tracks : List Track
  rubric : RubricL
deriving DecidableEq

/-- The phase tag of a `HackathonLifecycleError`. -/
inductive LPhase
  | validation
  | hackathon_create
  | tracks_create
  | rubric_create
deriving DecidableEq

/-- Structured rendering of the `HackathonLifecycleError` messages. -/
inductive LMsg
  | nameRequired
  | trackRequired
  | rubricCriteriaRequired
  | hackathonCreateFailed (detail : String)
  | tracksCreateFailed (detail : String)
  | rubricCreateFailed (detail : String)
deriving DecidableEq

/-- `HackathonLifecycleError`: phase, message, `canRetry`, and the partial
state (`hackathonId`, `createdTracks`) attached after the hackathon exists. -/
structure LifecycleError where
  phase : LPhase
  msg : LMsg
  canRetry : Bool
  hackathonId : Option String
  createdTracks : Option (List Track)
deriving DecidableEq

/-- The external calls the setup workflow can issue, in order. -/
inductive LifecycleCall
  | createHackathonCall (input : CreateHackathonInput) (status : HStatus)
  | createTrackCall (input : TrackInput) (hackathon_id : String)
  | createRubricCall (criteria_json : String) (hackathon_id : String)
deriving DecidableEq

/-- The sequential `for (const trackInput of tracksInput)` loop: `tResp i` is
the response of the i-th `createTrack` call.  On failure the error carries
the tracks created so far (in creation order); the second component is the
trace of `createTrack` calls issued. -/
def runCreateTracks (hid : String) (tResp : Nat → Except String Track) :
    List TrackInput → Nat → Except (String × List Track) (List Track) × List LifecycleCall
  | [], _ => (Except.ok [], [])
  | inp :: rest, i =>
    match tResp i with
    | Except.error e => (Except.error (e, []), [LifecycleCall.createTrackCall inp hid])
    | Except.ok t =>
      match runCreateTracks hid tResp rest (i + 1) with
      | (Except.ok ts, calls) =>
        (Except.ok (t :: ts), LifecycleCall.createTrackCall inp hid :: calls)
      | (Except.error (e, ts), calls) =>
        (Except.error (e, t :: ts), LifecycleCall.createTrackCall inp hid :: calls)

/-- `createHackathonWithSetup(input)`: validate, create the hackathon in
DRAFT, create the tracks sequentially, create the rubric.  `hResp`, `tResp`
and `rResp` are the responses of the external calls; the second component is
the ordered trace of calls issued. -/
def createHackathonWithSetup (input : HackathonLifecycleInput)
    (hResp : Except String Hackathon) (tResp : Nat → Except String Track)
    (rResp : Except String RubricL) :
    Except LifecycleError LifecycleResult × List LifecycleCall :=
  if isBlank input.hackathon.name then
    (Except.error ⟨LPhase.validation, LMsg.nameRequired, false, none, none⟩, [])
  else if input.tracks.isEmpty then
    (Except.error ⟨LPhase.validation, LMsg.trackRequired, false, none, none⟩, [])
  else if input.rubric.criteria_json = "" then
    (Except.error ⟨LPhase.validation, LMsg.rubricCriteriaRequired, false, none, none⟩, [])
  else
    let hCall := LifecycleCall.createHackathonCall input.hackathon HStatus.DRAFT
    match hResp with
    | Except.error e =>
      (Except.error ⟨LPhase.hackathon_create, LMsg.hackathonCreateFailed e, true,
        none, none⟩, [hCall])
    | Except.ok h =>
      match runCreateTracks h.hackathon_id tResp input.tracks 0 with
      | (Except.error (e, createdTracks), tCalls) =>
        (Except.error ⟨LPhase.tracks_create, LMsg.tracksCreateFailed e, true,
          some h.hackathon_id, some createdTracks⟩, hCall :: tCalls)
      | (Except.ok createdTracks, tCalls) =>
        let rCall := LifecycleCall.createRubricCall input.rubric.criteria_json
          h.hackathon_id
        match rResp with
        | Except.error e =>
          (Except.error ⟨LPhase.rubric_create, LMsg.rubricCreateFailed e, true,
            some h.hackathon_id, some createdTracks⟩, hCall :: (tCalls ++ [rCall]))
        | Except.ok rubric =>
          (Except.ok ⟨h, createdTracks, rubric⟩, hCall :: (tCalls ++ [rCall]))

theorem runCreateTracks_all_ok (hid : String) (tOk : Nat → Track)
    (inputs : List TrackInput) (k : Nat) :
    runCreateTracks hid (fun j => Except.ok (tOk j)) inputs k =
      (Except.ok ((List.range inputs.length).map fun j => tOk (k + j)),
        inputs.map fun inp => LifecycleCall.createTrackCall inp hid) := by
  induction inputs generalizing k with
  | nil => simp [runCreateTracks]
  | cons inp rest ih =>
    unfold runCreateTracks
    rw [ih (k + 1)]
    simp only [List.length_cons, List.range_succ_eq_map, List.map_cons, List.map_map]
    have hmap : List.map ((fun j => tOk (k + j)) ∘ Nat.succ) (List.range rest.length) =
        List.map (fun j => tOk (k + 1 + j)) (List.range rest.length) := by
      apply List.map_congr_left
      intro j _
      simp only [Function.comp_apply]
      congr 1
      omega
    rw [hmap]
    simp

theorem runCreateTracks_first_fail (hid : String) (tOk : Nat → Track) (e : String)
    (inputs : List TrackInput) (k d : Nat) (hd : d < inputs.length) :
    runCreateTracks hid
        (fun j => if j < k + d then Except.ok (tOk j) else Except.error e) inputs k =
      (Except.error (e, (List.range d).map fun j => tOk (k + j)),
        (inputs.take (d + 1)).map fun inp => LifecycleCall.createTrackCall inp hid) := by
  induction inputs generalizing k d with
  | nil => simp at hd
  | cons inp rest ih =>
    cases d with
    | zero =>
      unfold runCreateTracks
      rw [if_neg (by omega)]
      simp
    | succ d' =>
      unfold runCreateTracks
      rw [if_pos (by omega)]
      have hd' : d' < rest.length := by simpa using Nat.lt_of_succ_lt_succ hd
      have := ih (k + 1) d' hd'
      rw [show (fun j => if j < k + 1 + d' then Except.ok (tOk j) else Except.error e) =
        (fun j => if j < k + (d' + 1) then Except.ok (tOk j) else Except.error e) from by
          funext j
          congr 1
          simp [Nat.add_comm, Nat.add_assoc, Nat.add_left_comm]] at this
      rw [this]
      simp only [List.range_succ_eq_map, List.map_cons, List.map_map, List.take_succ_cons,
        Nat.add_zero]
      have hmap : List.map ((fun j => tOk (k + j)) ∘ Nat.succ) (List.range d') =
          List.map (fun j => tOk (k + 1 + j)) (List.range d') := by
        apply List.map_congr_left
        intro j _
        simp only [Function.comp_apply]
        congr 1
        omega
      rw [hmap]

/-- C8: `createHackathonWithSetup` rejects an empty name, an empty track
list and empty rubric criteria with a validation error before any external
call; on valid input it creates the hackathon in DRAFT status first, then the
tracks sequentially (each under the new hackathon id), then the rubric; a
track-creation failure after the hackathon exists reports the created
hackathon id and exactly the tracks created so far, and a rubric-creation
failure reports the id and all created tracks — with no rollback call in the
trace. -/
theorem createHackathonWithSetup_contract
    (input : HackathonLifecycleInput) (hResp : Except String Hackathon)
    (tResp : Nat → Except String Track) (rResp : Except String RubricL)
    (hk : Hackathon) (tOk : Nat → Track) (e : String) (r : RubricL) (d : Nat) :
    (isBlank input.hackathon.name = true →
      createHackathonWithSetup input hResp tResp rResp =
        (Except.error ⟨LPhase.validation, LMsg.nameRequired, false, none, none⟩, [])) ∧
    (isBlank input.hackathon.name = false → input.tracks = [] →
      createHackathonWithSetup input hResp tResp rResp =
        (Except.error ⟨LPhase.validation, LMsg.trackRequired, false, none, none⟩, [])) ∧
    (isBlank input.hackathon.name = false → input.tracks ≠ [] →
      input.rubric.criteria_json = "" →
      createHackathonWithSetup input hResp tResp rResp =
        (Except.error ⟨LPhase.validation, LMsg.rubricCriteriaRequired, false,
          none, none⟩, [])) ∧
    (isBlank input.hackathon.name = false → input.tracks ≠ [] →
      input.rubric.criteria_json ≠ "" →
      createHackathonWithSetup input (Except.error e) tResp rResp =
        (Except.error ⟨LPhase.hackathon_create, LMsg.hackathonCreateFailed e, true,
            none, none⟩,
          [LifecycleCall.createHackathonCall input.hackathon HStatus.DRAFT])) ∧
    (isBlank input.hackathon.name = false → input.tracks ≠ [] →
      input.rubric.criteria_json ≠ "" →
      createHackathonWithSetup input (Except.ok hk) (fun j => Except.ok (tOk j))
          (Except.ok r) =
        (Except.ok ⟨hk, (List.range input.tracks.length).map tOk, r⟩,
          LifecycleCall.createHackathonCall input.hackathon HStatus.DRAFT ::
            ((input.tracks.map fun inp =>
                LifecycleCall.createTrackCall inp hk.hackathon_id) ++
              [LifecycleCall.createRubricCall input.rubric.criteria_json
                hk.hackathon_id]))) ∧
    (isBlank input.hackathon.name = false → input.tracks ≠ [] →
      input.rubric.criteria_json ≠ "" → d < input.tracks.length →
      createHackathonWithSetup input (Except.ok hk)
          (fun j => if j < d then Except.ok (tOk j) else Except.error e) rResp =
        (Except.error ⟨LPhase.tracks_create, LMsg.tracksCreateFailed e, true,
            some hk.hackathon_id, some ((List.range d).map tOk)⟩,
          LifecycleCall.createHackathonCall input.hackathon HStatus.DRAFT ::
            (input.tracks.take (d + 1)).map fun inp =>
              LifecycleCall.createTrackCall inp hk.hackathon_id)) ∧
    (isBlank input.hackathon.name = false → input.tracks ≠ [] →
      input.rubric.criteria_json ≠ "" →
      createHackathonWithSetup input (Except.ok hk) (fun j => Except.ok (tOk j))
          (Except.error e) =
        (Except.error ⟨LPhase.rubric_create, LMsg.rubricCreateFailed e, true,
            some hk.hackathon_id, some ((List.range input.tracks.length).map tOk)⟩,
          LifecycleCall.createHackathonCall input.hackathon HStatus.DRAFT ::
            ((input.tracks.map fun inp =>
                LifecycleCall.createTrackCall inp hk.hackathon_id) ++
              [LifecycleCall.createRubricCall input.rubric.criteria_json
                hk.hackathon_id]))) := by
  refine ⟨?_, ?_, ?_, ?_, ?_, ?_, ?_⟩
  · intro h1
    simp [createHackathonWithSetup, h1]
  · intro h1 h2
    simp [createHackathonWithSetup, h1, h2]
  · intro h1 h2 h3
    simp [createHackathonWithSetup, h1, h2, h3]
  · intro h1 h2 h3
    simp [createHackathonWithSetup, h1, h2, h3]
  · intro h1 h2 h3
    have hrun := runCreateTracks_all_ok hk.hackathon_id tOk input.tracks 0
    simp only [Nat.zero_add] at hrun
    simp [createHackathonWithSetup, h1, h2, h3, hrun]
  · intro h1 h2 h3 hd
    have hrun := runCreateTracks_first_fail hk.hackathon_id tOk e input.tracks 0 d
      (by simpa using hd)
    simp only [Nat.zero_add] at hrun
    simp [createHackathonWithSetup, h1, h2, h3, hrun]
  · intro h1 h2 h3
    have hrun := runCreateTracks_all_ok hk.hackathon_id tOk input.tracks 0
    simp only [Nat.zero_add] at hrun
    simp [createHackathonWithSetup, h1, h2, h3, hrun]

/-- Witness for C8: a two-track setup where the second track creation fails,
reporting the created hackathon id and the single created track. -/
theorem createHackathonWithSetup_contract_witness :
    createHackathonWithSetup
        ⟨⟨"Test Hackathon", "", "2025-01-01", "2025-01-31"⟩,
          [⟨"Track 1", ""⟩, ⟨"Track 2", ""⟩], ⟨"criteria"⟩⟩
        (Except.ok ⟨"hackathon-123", HStatus.DRAFT⟩)
        (fun j => if j < 1 then Except.ok ⟨"track-1", "hackathon-123", "Track 1", ""⟩
          else Except.error "Track creation failed")
        (Except.ok ⟨"rubric-123", "hackathon-123", "criteria"⟩) =
      (Except.error ⟨LPhase.tracks_create, LMsg.tracksCreateFailed "Track creation failed",
          true, some "hackathon-123",
          some [⟨"track-1", "hackathon-123", "Track 1", ""⟩]⟩,
        [LifecycleCall.createHackathonCall ⟨"Test Hackathon", "", "2025-01-01", "2025-01-31"⟩
            HStatus.DRAFT,
          LifecycleCall.createTrackCall ⟨"Track 1", ""⟩ "hackathon-123",
          LifecycleCall.createTrackCall ⟨"Track 2", ""⟩ "hackathon-123"]) := by
  have := (createHackathonWithSetup_contract
      ⟨⟨"Test Hackathon", "", "2025-01-01", "2025-01-31"⟩,
        [⟨"Track 1", ""⟩, ⟨"Track 2", ""⟩], ⟨"criteria"⟩⟩
      (Except.ok ⟨"hackathon-123", HStatus.DRAFT⟩)
      (fun j => if j < 1 then Except.ok ⟨"track-1", "hackathon-123", "Track 1", ""⟩
        else Except.error "Track creation failed")
      (Except.ok ⟨"rubric-123", "hackathon-123", "criteria"⟩)
      ⟨"hackathon-123", HStatus.DRAFT⟩
      (fun _ => ⟨"track-1", "hackathon-123", "Track 1", ""⟩)
      "Track creation failed" ⟨"rubric-123", "hackathon-123", "criteria"⟩
      1).2.2.2.2.2.1
    (by decide) (by decide) (by decide) (by decide)
  simpa using this

/-! ## Embedding namespaces (`lib/embeddings-namespace.ts`) and submissions
(`frontend/lib/api/submissions.ts`) -/

theorem splitCh_ne_nil (sep : Char) (l : List Char) : splitCh sep l ≠ [] := by
  induction l with
  | nil => simp [splitCh]
  | cons c cs ih =>
    unfold splitCh
    cases h : c == sep with
    | true => simp
    | false =>
      cases hsp : splitCh sep cs with
      | nil => exact absurd hsp ih
      | cons g gs => simp

theorem splitCh_append_sep (sep : Char) (l1 l2 : List Char) (h : sep ∉ l1) :
    splitCh sep (l1 ++ sep :: l2) = l1 :: splitCh sep l2 := by
  induction l1 with
  | nil => simp [splitCh]
  | cons c cs ih =>
    simp only [List.mem_cons, not_or] at h
    have hcs : (c == sep) = false := by
      simp only [beq_eq_false_iff_ne, ne_eq]
      exact fun hc => h.1 hc.symm
    rw [List.cons_append]
    simp only [splitCh, hcs, Bool.false_eq_true, if_false]
    rw [ih h.2]

theorem splitCh_no_sep (sep : Char) (l : List Char) (h : sep ∉ l) :
    splitCh sep l = [l] := by
  induction l with
  | nil => rfl
  | cons c cs ih =>
    simp only [List.mem_cons, not_or] at h
    have hcs : (c == sep) = false := by
      simp only [beq_eq_false_iff_ne, ne_eq]
      exact fun hc => h.1 hc.symm
    simp only [splitCh, hcs, Bool.false_eq_true, if_false]
    rw [ih h.2]

theorem mem_of_splitCh (sep : Char) (l : List Char) (c : Char) (hc : c ∈ l) :
    c = sep ∨ ∃ g ∈ splitCh sep l, c ∈ g := by
  induction l with
  | nil => simp at hc
  | cons x xs ih =>
    rcases List.mem_cons.mp hc with rfl | hc'
    · cases hx : c == sep with
      | true => exact Or.inl (by simpa using hx)
      | false =>
        right
        unfold splitCh
        rw [hx]
        simp only [Bool.false_eq_true, if_false]
        cases hsp : splitCh sep xs with
        | nil => exact ⟨[c], by simp⟩
        | cons g gs => exact ⟨c :: g, by simp⟩
    · rcases ih hc' with h | ⟨g, hg, hcg⟩
      · exact Or.inl h
      · right
        unfold splitCh
        cases hx : x == sep with
        | true =>
          exact ⟨g, by simp [hg], hcg⟩
        | false =>
          simp only [Bool.false_eq_true, if_false]
          cases hsp : splitCh sep xs with
          | nil => exact absurd hsp (splitCh_ne_nil sep xs)
          | cons g' gs =>
            rw [hsp] at hg
            rcases List.mem_cons.mp hg with rfl | hg'
            · exact ⟨x :: g, by simp, List.mem_cons_of_mem _ hcg⟩
            · exact ⟨g, by simp [hg'], hcg⟩

theorem takeWhile_append_head_false (p : Char → Bool) (l1 : List Char) (x : Char)
    (l2 : List Char) (h1 : ∀ c ∈ l1, p c = true) (hx : p x = false) :
    (l1 ++ x :: l2).takeWhile p = l1 := by
  induction l1 with
  | nil => simp [List.takeWhile_cons, hx]
  | cons c cs ih =>
    have hc : p c = true := h1 c (by simp)
    simp only [List.cons_append, List.takeWhile_cons, hc, if_true]
    rw [ih fun d hd => h1 d (by simp [hd])]

/-- `isHexDigit` embeds the character class `[0-9a-f]` with the `/i` flag
(so upper-case hex digits are accepted too). -/
def isHexDigit (c : Char) : Bool :=
  ('0' ≤ c && c ≤ '9') || ('a' ≤ c && c ≤ 'f') || ('A' ≤ c && c ≤ 'F')

/-- The `UUID_REGEX`
`^[0-9a-f]{8}-[0-9a-f]{4}-[0-9a-f]{4}-[0-9a-f]{4}-[0-9a-f]{12}$/i` on a
character list: splitting at `-` yields exactly the five groups of lengths
8-4-4-4-12, all hex. -/
def isUUIDL (l : List Char) : Bool :=
  ((splitCh '-' l).map List.length == [8, 4, 4, 4, 12]) &&
    (splitCh '-' l).all fun g => g.all isHexDigit

theorem isUUIDL_mem {l : List Char} (h : isUUIDL l = true) :
    ∀ c ∈ l, c = '-' ∨ isHexDigit c = true := by
  unfold isUUIDL at h
  simp only [Bool.and_eq_true, List.all_eq_true] at h
  intro c hc
  rcases mem_of_splitCh '-' l c hc with h1 | ⟨g, hg, hcg⟩
  · exact Or.inl h1
  · exact Or.inr (by simpa using h.2 g hg c hcg)

theorem isUUIDL_ne_nil {l : List Char} (h : isUUIDL l = true) : l ≠ [] := by
  intro hl
  subst hl
  exact absurd h (by decide)

theorem stringMk_data (s : String) : String.mk s.data = s := rfl

theorem string_data_append (a b : String) : (a ++ b).data = a.data ++ b.data := rfl

theorem string_eq_empty_iff (s : String) : s = "" ↔ s.data = [] := by
  constructor
  · intro h
    subst h
    rfl
  · intro h
    cases s with
    | mk d =>
      simp only at h
      subst h
      rfl

/-- The three valid namespace segment types. -/
def NAMESPACE_TYPES : List String := ["submissions", "projects", "judging"]

/-- `validateNamespace(namespace)`: throws (here: returns `Except.error`) on
an empty string, a string not starting with `hackathons/`, a string without
exactly three `/`-separated parts, a non-UUID hackathon id, or an unknown
segment type. -/
def validateNamespaceE (ns : String) : Except String Unit :=
  if ns = "" then Except.error "Namespace must be a non-empty string"
  else if !(strStartsWith ns "hackathons/") then
    Except.error "Namespace must start with hackathons/"
  else
    match splitCh '/' ns.data with
    | [_, p1, p2] =>
      if !(isUUIDL p1) then
        Except.error ("Invalid hackathon ID in namespace: " ++ String.mk p1)
      else if !(NAMESPACE_TYPES.contains (String.mk p2)) then
        Except.error ("Invalid namespace type: " ++ String.mk p2)
      else Except.ok ()
    | _ =>
      Except.error "Namespace must follow format: hackathons/\x7bhackathon_id\x7d/\x7btype\x7d"

/-- `validateNamespace` as an accept/reject boolean. -/
def validateNamespaceB (ns : String) : Bool :=
  match validateNamespaceE ns with
  | Except.ok _ => true
  | Except.error _ => false

/-- `parseNamespace(namespace)`: validate, split, and return
`{hackathonId: parts[1], type: parts[2]}`. -/
def parseNamespace (ns : String) : Except String (String × String) :=
  match validateNamespaceE ns with
  | Except.error e => Except.error e
  | Except.ok _ =>
    Except.ok (String.mk ((splitCh '/' ns.data).getD 1 []),
      String.mk ((splitCh '/' ns.data).getD 2 []))

/-- `validateUUID` (the internal helper of the namespace module). -/
def validateUUIDInternal (value fieldName : String) : Except String Unit :=
  if value = "" then Except.error (fieldName ++ " must be a non-empty string")
  else if !(isUUIDL value.data) then
    Except.error (fieldName ++ " must be a valid UUID")
  else Except.ok ()

/-- `EmbeddingNamespace.submissions(hackathonId)`. -/
def EmbeddingNamespace_submissions (hackathonId : String) : Except String String :=
  match validateUUIDInternal hackathonId "hackathonId" with
  | Except.error e => Except.error e
  | Except.ok _ => Except.ok ("hackathons/" ++ hackathonId ++ "/submissions")

/-- `EmbeddingNamespace.projects(hackathonId)`. -/
def EmbeddingNamespace_projects (hackathonId : String) : Except String String :=
  match validateUUIDInternal hackathonId "hackathonId" with
  | Except.error e => Except.error e
  | Except.ok _ => Except.ok ("hackathons/" ++ hackathonId ++ "/projects")

/-- `EmbeddingNamespace.judging(hackathonId)`. -/
def EmbeddingNamespace_judging (hackathonId : String) : Except String String :=
  match validateUUIDInternal hackathonId "hackathonId" with
  | Except.error e => Except.error e
  | Except.ok _ => Except.ok ("hackathons/" ++ hackathonId ++ "/judging")

/-- `DocumentId.submission(submissionId)`. -/
def DocumentId_submission (submissionId : String) : Except String String :=
  match validateUUIDInternal submissionId "submissionId" with
  | Except.error e => Except.error e
  | Except.ok _ => Except.ok ("submission:" ++ submissionId)

/-- `DocumentId.project(projectId)`. -/
def DocumentId_project (projectId : String) : Except String String :=
  match validateUUIDInternal projectId "projectId" with
  | Except.error e => Except.error e
  | Except.ok _ => Except.ok ("project:" ++ projectId)

/-- `validateDocumentId(docId)`: non-empty, a `submission:`/`project:`
prefix, and a UUID after the first colon. -/
def validateDocumentIdE (docId : String) : Except String Unit :=
  if docId = "" then Except.error "Document ID must be a non-empty string"
  else if !(strStartsWith docId "submission:" || strStartsWith docId "project:") then
    Except.error "Document ID must start with one of: submission:, project:"
  else
    let pre := docId.data.takeWhile fun c => c != ':'
    let id := docId.data.drop (pre.length + 1)
    if !(isUUIDL id) then
      Except.error ("Invalid UUID in document ID: " ++ String.mk id)
    else Except.ok ()

/-- `parseDocumentId(docId)`: validate, then split at the first colon into
`{type, id}`. -/
def parseDocumentId (docId : String) : Except String (String × String) :=
  match validateDocumentIdE docId with
  | Except.error e => Except.error e
  | Except.ok _ =>
    let pre := docId.data.takeWhile fun c => c != ':'
    Except.ok (String.mk pre, String.mk (docId.data.drop (pre.length + 1)))

/-- An artifact link of a submission. -/
structure ArtifactLink where
  url : String
  type : String
  label : Option String
deriving DecidableEq

/-- `CreateSubmissionInput`. -/
structure CreateSubmissionInput where
  project_id : String
  hackathon_id : String
  submission_text : String
  artifact_links : List ArtifactLink

/-- The submission row written to the `submissions` table (the `namespace`
field of the source is `namespace_` here, `namespace` being reserved). -/
structure SubmissionRow where
  submission_id : String
  project_id : String
  submitted_at : String
  submission_text : String
  artifact_links_json : List ArtifactLink
  namespace_ : String
deriving DecidableEq

/-- `generateSubmissionNamespace(hackathonId)` of `lib/api/submissions.ts`:
plain interpolation, no validation. -/
def generateSubmissionNamespace (hackathonId : String) : String :=
  "hackathons/" ++ hackathonId ++ "/submissions"

/-- `createSubmission(input)`: stamps the row with
`generateSubmissionNamespace(input.hackathon_id)` and inserts it.  `newId`
models `crypto.randomUUID()`, `now` the `submitted_at` timestamp; the second
component is the list of rows written to the store. -/
def createSubmission (input : CreateSubmissionInput) (newId now : String)
    (insertResp : Except String Unit) :
    Except String SubmissionRow × List SubmissionRow :=
  let submission : SubmissionRow := ⟨newId, input.project_id, now,
    input.submission_text, input.artifact_links,
    generateSubmissionNamespace input.hackathon_id⟩
  match insertResp with
  | Except.ok _ => (Except.ok submission, [submission])
  | Except.error e =>
    (Except.error (if e = "" then "Failed to create submission" else e), [submission])

theorem isUUIDL_no_slash {l : List Char} (hu : isUUIDL l = true) : '/' ∉ l := by
  intro hc
  rcases isUUIDL_mem hu _ hc with h1 | h1
  · exact absurd h1 (by decide)
  · exact absurd h1 (by decide)

theorem splitCh_generated (h t : String) (hns : '/' ∉ h.data) (ht : '/' ∉ t.data) :
    splitCh '/' ("hackathons/" ++ h ++ ("/" ++ t)).data =
      ["hackathons".data, h.data, t.data] := by
  have hdata : ("hackathons/" ++ h ++ ("/" ++ t)).data =
      "hackathons".data ++ '/' :: (h.data ++ '/' :: t.data) := by
    rw [string_data_append, string_data_append, string_data_append]
    rw [show ("hackathons/" : String).data = "hackathons".data ++ ['/'] from rfl]
    rw [show ("/" : String).data = ['/'] from rfl]
    simp
  rw [hdata]
  rw [splitCh_append_sep '/' "hackathons".data _ (by decide)]
  rw [splitCh_append_sep '/' h.data _ hns]
  rw [splitCh_no_sep '/' t.data ht]

theorem validateNamespaceE_generated (h t : String) (hu : isUUIDL h.data = true)
    (ht : '/' ∉ t.data) (htyp : NAMESPACE_TYPES.contains t = true) :
    validateNamespaceE ("hackathons/" ++ h ++ ("/" ++ t)) = Except.ok () := by
  have hns := isUUIDL_no_slash hu
  have hsp := splitCh_generated h t hns ht
  have hne : ("hackathons/" ++ h ++ ("/" ++ t)) ≠ "" := by
    intro hemp
    rw [hemp] at hsp
    rw [show splitCh '/' ("" : String).data = [[]] from rfl] at hsp
    exact absurd (List.head_eq_of_cons_eq hsp) (by decide)
  have hstart : strStartsWith ("hackathons/" ++ h ++ ("/" ++ t)) "hackathons/" = true := by
    unfold strStartsWith
    rw [string_data_append, string_data_append, List.append_assoc]
    exact isPreB_append_self _ _
  unfold validateNamespaceE
  rw [if_neg hne]
  rw [hstart]
  simp only [Bool.not_true, Bool.false_eq_true, if_false]
  rw [hsp]
  simp only [stringMk_data, hu, Bool.not_true, Bool.false_eq_true, if_false, htyp]

/-- C9 (amended): `validateNamespace` accepts exactly the
`hackathons/{uuid}/{submissions|projects|judging}` shape —
`hackathons/<valid-uuid>/submissions` passes while
`hackathons/not-a-uuid/submissions` and `hackathons/<valid-uuid>/bogus-type`
fail — and every namespace generated from a UUID-valid hackathon id
validates; but `createSubmission` stamps its row with
`generateSubmissionNamespace(hackathon_id)` with no validation at all, so the
namespace it writes is exactly the raw interpolation of whatever hackathon id
it is given (see the counterexample for an invalid one being persisted). -/
theorem validateNamespace_format :
    validateNamespaceB
        "hackathons/123e4567-e89b-12d3-a456-426614174000/submissions" = true ∧
    validateNamespaceB "hackathons/not-a-uuid/submissions" = false ∧
    validateNamespaceB
        "hackathons/123e4567-e89b-12d3-a456-426614174000/bogus-type" = false ∧
    (∀ h : String, isUUIDL h.data = true →
      validateNamespaceB (generateSubmissionNamespace h) = true) ∧
    (∀ (input : CreateSubmissionInput) (newId now : String)
      (insertResp : Except String Unit),
      (createSubmission input newId now insertResp).2 =
        [⟨newId, input.project_id, now, input.submission_text, input.artifact_links,
          generateSubmissionNamespace input.hackathon_id⟩]) := by
  refine ⟨by decide, by decide, by decide, ?_, ?_⟩
  · intro h hu
    rw [show generateSubmissionNamespace h =
      "hackathons/" ++ h ++ ("/" ++ "submissions") from rfl]
    unfold validateNamespaceB
    rw [validateNamespaceE_generated h "submissions" hu (by decide) (by decide)]
  · intro input newId now insertResp
    cases insertResp <;> rfl

/-- Witness for C9's amended theorem: the generated namespace for a concrete
valid UUID validates. -/
theorem validateNamespace_format_witness :
    validateNamespaceB
      (generateSubmissionNamespace "123e4567-e89b-12d3-a456-426614174000") = true :=
  validateNamespace_format.2.2.2.1 "123e4567-e89b-12d3-a456-426614174000" (by decide)

/-- C9 counterexample: `createSubmission` persists (and returns) a submission
whose namespace fails `validateNamespace` — no rejection happens before the
external write. -/
theorem createSubmission_writes_invalid_namespace :
    (createSubmission ⟨"p1", "not-a-uuid", "text", []⟩ "s1" "2025-01-01"
        (Except.ok ())).1 =
      Except.ok ⟨"s1", "p1", "2025-01-01", "text", [],
        "hackathons/not-a-uuid/submissions"⟩ ∧
    (createSubmission ⟨"p1", "not-a-uuid", "text", []⟩ "s1" "2025-01-01"
        (Except.ok ())).2 =
      [⟨"s1", "p1", "2025-01-01", "text", [], "hackathons/not-a-uuid/submissions"⟩] ∧
    validateNamespaceB "hackathons/not-a-uuid/submissions" = false :=
  ⟨rfl, rfl, by decide⟩

theorem parseNamespace_generated (h t : String) (hu : isUUIDL h.data = true)
    (ht : '/' ∉ t.data) (htyp : NAMESPACE_TYPES.contains t = true) :
    parseNamespace ("hackathons/" ++ h ++ ("/" ++ t)) = Except.ok (h, t) := by
  unfold parseNamespace
  rw [validateNamespaceE_generated h t hu ht htyp]
  rw [splitCh_generated h t (isUUIDL_no_slash hu) ht]
  simp [stringMk_data]

theorem validateUUIDInternal_ok (v fieldName : String) (hu : isUUIDL v.data = true) :
    validateUUIDInternal v fieldName = Except.ok () := by
  have hne : v ≠ "" := by
    intro he
    exact isUUIDL_ne_nil hu (by rw [he])
  unfold validateUUIDInternal
  rw [if_neg hne, hu]
  rfl

theorem parseDocumentId_generated (pre id : String) (hpre : ':' ∉ pre.data)
    (hstart : strStartsWith (pre ++ ":" ++ id) "submission:" = true ∨
      strStartsWith (pre ++ ":" ++ id) "project:" = true)
    (hi : isUUIDL id.data = true) :
    parseDocumentId (pre ++ ":" ++ id) = Except.ok (pre, id) := by
  have hdata : (pre ++ ":" ++ id).data = pre.data ++ ':' :: id.data := by
    rw [string_data_append, string_data_append]
    rw [show (":" : String).data = [':'] from rfl]
    simp
  have htake : (pre ++ ":" ++ id).data.takeWhile (fun c => c != ':') = pre.data := by
    rw [hdata]
    refine takeWhile_append_head_false _ _ _ _ ?_ (by decide)
    intro c hc
    simp only [bne_iff_ne, ne_eq, decide_eq_true_eq]
    exact fun he => hpre (he ▸ hc)
  have hdrop : (pre ++ ":" ++ id).data.drop (pre.data.length + 1) = id.data := by
    rw [hdata]
    rw [show pre.data ++ ':' :: id.data = (pre.data ++ [':']) ++ id.data by simp]
    rw [show pre.data.length + 1 = (pre.data ++ [':']).length by simp]
    exact List.drop_left _ _
  have hne : (pre ++ ":" ++ id) ≠ "" := by
    intro he
    have hd := congrArg String.data he
    rw [hdata] at hd
    simp at hd
  have hval : validateDocumentIdE (pre ++ ":" ++ id) = Except.ok () := by
    unfold validateDocumentIdE
    rw [if_neg hne]
    rw [show (strStartsWith (pre ++ ":" ++ id) "submission:" ||
        strStartsWith (pre ++ ":" ++ id) "project:") = true by
      rcases hstart with h | h <;> simp [h]]
    simp only [Bool.not_true, Bool.false_eq_true, if_false]
    rw [htake, hdrop, hi]
    rfl
  unfold parseDocumentId
  rw [hval]
  simp only [htake, hdrop, stringMk_data]

/-- C10: builder/parser round-trips — for every UUID-valid hackathon id `h`,
each `EmbeddingNamespace` builder succeeds and `parseNamespace` recovers
exactly `(h, type)` for its type; and for every UUID-valid id, the
`DocumentId` builders succeed and `parseDocumentId` recovers exactly
`(submission|project, id)`. -/
theorem embedding_roundtrips (h id : String)
    (hu : isUUIDL h.data = true) (hi : isUUIDL id.data = true) :
    (∃ ns, EmbeddingNamespace_submissions h = Except.ok ns ∧
      parseNamespace ns = Except.ok (h, "submissions")) ∧
    (∃ ns, EmbeddingNamespace_projects h = Except.ok ns ∧
      parseNamespace ns = Except.ok (h, "projects")) ∧
    (∃ ns, EmbeddingNamespace_judging h = Except.ok ns ∧
      parseNamespace ns = Except.ok (h, "judging")) ∧
    (∃ d, DocumentId_submission id = Except.ok d ∧
      parseDocumentId d = Except.ok ("submission", id)) ∧
    (∃ d, DocumentId_project id = Except.ok d ∧
      parseDocumentId d = Except.ok ("project", id)) := by
  have hvalh := validateUUIDInternal_ok h "hackathonId" hu
  refine ⟨⟨"hackathons/" ++ h ++ "/submissions", ?_, ?_⟩,
    ⟨"hackathons/" ++ h ++ "/projects", ?_, ?_⟩,
    ⟨"hackathons/" ++ h ++ "/judging", ?_, ?_⟩,
    ⟨"submission:" ++ id, ?_, ?_⟩, ⟨"project:" ++ id, ?_, ?_⟩⟩
  · unfold EmbeddingNamespace_submissions
    rw [hvalh]
  · rw [show ("hackathons/" ++ h ++ "/submissions") =
      "hackathons/" ++ h ++ ("/" ++ "submissions") from rfl]
    exact parseNamespace_generated h "submissions" hu (by decide) (by decide)
  · unfold EmbeddingNamespace_projects
    rw [hvalh]
  · rw [show ("hackathons/" ++ h ++ "/projects") =
      "hackathons/" ++ h ++ ("/" ++ "projects") from rfl]
    exact parseNamespace_generated h "projects" hu (by decide) (by decide)
  · unfold EmbeddingNamespace_judging
    rw [hvalh]
  · rw [show ("hackathons/" ++ h ++ "/judging") =
      "hackathons/" ++ h ++ ("/" ++ "judging") from rfl]
    exact parseNamespace_generated h "judging" hu (by decide) (by decide)
  · unfold DocumentId_submission
    rw [validateUUIDInternal_ok id "submissionId" hi]
  · rw [show ("submission:" ++ id) = "submission" ++ ":" ++ id from rfl]
    refine parseDocumentId_generated "submission" id (by decide) ?_ hi
    left
    rw [show ("submission" ++ ":" ++ id) = "submission:" ++ id from rfl]
    unfold strStartsWith
    rw [string_data_append]
    exact isPreB_append_self _ _
  · unfold DocumentId_project
    rw [validateUUIDInternal_ok id "projectId" hi]
  · rw [show ("project:" ++ id) = "project" ++ ":" ++ id from rfl]
    refine parseDocumentId_generated "project" id (by decide) ?_ hi
    right
    rw [show ("project" ++ ":" ++ id) = "project:" ++ id from rfl]
    unfold strStartsWith
    rw [string_data_append]
    exact isPreB_append_self _ _

/-- Witness for C10 at a concrete UUID. -/
theorem embedding_roundtrips_witness :
    (∃ ns, EmbeddingNamespace_submissions "123e4567-e89b-12d3-a456-426614174000" =
        Except.ok ns ∧
      parseNamespace ns =
        Except.ok ("123e4567-e89b-12d3-a456-426614174000", "submissions")) ∧
    (∃ d, DocumentId_project "a1b2c3d4-e5f6-4789-a9b0-c1d2e3f4a5b6" = Except.ok d ∧
      parseDocumentId d =
        Except.ok ("project", "a1b2c3d4-e5f6-4789-a9b0-c1d2e3f4a5b6")) :=
  ⟨(embedding_roundtrips "123e4567-e89b-12d3-a456-426614174000"
      "a1b2c3d4-e5f6-4789-a9b0-c1d2e3f4a5b6" (by decide) (by decide)).1,
   (embedding_roundtrips "123e4567-e89b-12d3-a456-426614174000"
      "a1b2c3d4-e5f6-4789-a9b0-c1d2e3f4a5b6" (by decide) (by decide)).2.2.2.2⟩
